import Mathlib

/-!
Shallow embedding of the `sms` package (SMS PDU codec, 3GPP TS 23.040).

The repository source provides the `Message` façade: `Message.PDU`,
`Message.ReadFrom`, `cutStr` and `blocks`. The leaf codecs it calls
(GSM 7-bit packing, UCS-2, semi-octet digits, phone numbers, timestamps,
validity periods, user-data headers and the three frame codecs) are not part
of the source tree and are modelled from the specification, as noted on each
definition.

Go strings are modelled as lists of code points (`GoStr`); the UTF-8 byte
length that Go's `len` returns is `goLen`. Octet sequences are `List Nat`
with values kept below 256 by explicit `% 256` where Go converts to `byte`.
A Go panic (out-of-range slice) is modelled by an `Option` result: `none`
means the call aborts.
-/

namespace Sms

/-- Errors surfaced by the codec, together with the io errors Go's reader
produces on short input. -/
inductive GoErr where
  | unknownEncoding
  | unknownMessageType
  | incorrectSize
  | nonRelative
  | incorrectUDHLength
  | eof
  | unexpectedEOF
  deriving DecidableEq, Repr

/-- Go strings as lists of Unicode code points (runes). -/
abbrev GoStr := List Nat

/-- UTF-8 byte count of a single code point. -/
def runeLen8 (c : Nat) : Nat :=
  if c < 0x80 then 1 else if c < 0x800 then 2 else if c < 0x10000 then 3 else 4

/-- Go's `len` on a string: its UTF-8 byte count. -/
def goLen (s : GoStr) : Nat := (s.map runeLen8).sum

/-- Embeds `blocks` from the source: ceiling division. -/
def blocks (n block : Nat) : Nat :=
  if n % block = 0 then n / block else n / block + 1

/-- Embeds `cutStr` from the source. The Go code compares `n` against the
byte length `len(str)` but slices the rune array `runes[0:n]`, which panics
when `n` exceeds the number of runes; the panic is modelled by `none`. -/
def cutStr (str : GoStr) (n : Nat) : Option GoStr :=
  if n < goLen str then
    if n ≤ str.length then some (str.take n) else none
  else some str

/-! ## Bit-level helpers for the 7-bit packing transform -/

/-- Little-endian bits of `n`, `k` of them. -/
def bitsLE : Nat → Nat → List Bool
  | 0, _ => []
  | k + 1, n => decide (n % 2 = 1) :: bitsLE k (n / 2)

/-- Value of a little-endian bit list. -/
def bitsVal : List Bool → Nat
  | [] => 0
  | b :: t => (if b then 1 else 0) + 2 * bitsVal t

/-- Concatenation of the images of `f`. -/
def concatMap (f : α → List β) : List α → List β
  | [] => []
  | x :: xs => f x ++ concatMap f xs

/-- Worker for `chunkExact`, structurally recursive on a fuel bound. -/
def chunkGo (k : Nat) : Nat → List Bool → List (List Bool)
  | 0, _ => []
  | fuel + 1, l =>
    if 0 < k ∧ k ≤ l.length then l.take k :: chunkGo k fuel (l.drop k)
    else []

/-- Full `k`-sized chunks of a list; an incomplete final group is dropped. -/
def chunkExact (k : Nat) (l : List Bool) : List (List Bool) :=
  chunkGo k l.length l

/-! ## GSM 7-bit alphabet (modelled from the spec) -/

/-- Modelled from the spec: the 128-entry GSM 03.38 default alphabet that the
missing `pdu` package tabulates, listed by septet value; entry 27 is the
escape code and holds the sentinel 0x1B. -/
def gsmTable : List Nat :=
  [64, 163, 36, 165, 232, 233, 249, 236, 242, 199, 10, 216, 248, 13, 197, 229,
   916, 95, 934, 915, 923, 937, 928, 936, 931, 920, 926, 27, 198, 230, 223, 201,
   32, 33, 34, 35, 164, 37, 38, 39, 40, 41, 42, 43, 44, 45, 46, 47,
   48, 49, 50, 51, 52, 53, 54, 55, 56, 57, 58, 59, 60, 61, 62, 63,
   161, 65, 66, 67, 68, 69, 70, 71, 72, 73, 74, 75, 76, 77, 78, 79,
   80, 81, 82, 83, 84, 85, 86, 87, 88, 89, 90, 196, 214, 209, 220, 167,
   191, 97, 98, 99, 100, 101, 102, 103, 104, 105, 106, 107, 108, 109, 110, 111,
   112, 113, 114, 115, 116, 117, 118, 119, 120, 121, 122, 228, 246, 241, 252, 224]

/-- Modelled from the spec: extension table reached via escape 0x1B; covers
^ { } \ [ ~ ] | and the euro sign, and otherwise yields space. -/
def extTable (s : Nat) : Nat :=
  if s = 20 then 94
  else if s = 40 then 123
  else if s = 41 then 125
  else if s = 47 then 92
  else if s = 60 then 91
  else if s = 61 then 126
  else if s = 62 then 93
  else if s = 64 then 124
  else if s = 101 then 8364
  else 32

/-- Modelled from the spec: reverse lookup into the extension table. -/
def extIndex (c : Nat) : Option Nat :=
  if c = 94 then some 20
  else if c = 123 then some 40
  else if c = 125 then some 41
  else if c = 92 then some 47
  else if c = 91 then some 60
  else if c = 126 then some 61
  else if c = 93 then some 62
  else if c = 124 then some 64
  else if c = 8364 then some 101
  else none

/-- Modelled from the spec: translate one character to its septet sequence;
characters outside both tables are silently replaced by space. -/
def encodeChar (c : Nat) : List Nat :=
  if gsmTable.contains c then [gsmTable.indexOf c]
  else
    match extIndex c with
    | some e => [27, e]
    | none => [32]

/-- Modelled from the spec: map decoded septets to characters, routing the
septet after an escape through the extension table. -/
def decodeSeptets : List Nat → List Nat
  | [] => []
  | s :: rest =>
    if s = 27 then
      match rest with
      | [] => []
      | e :: rest2 => extTable e :: decodeSeptets rest2
    else gsmTable.getD s 32 :: decodeSeptets rest

/-- Modelled from the spec: pack a septet sequence into octets by
bit-concatenating the septets little-endian, padding with zero bits to a byte
boundary, and re-chunking into 8-bit groups. -/
def pack7 (septets : List Nat) : List Nat :=
  let bits := concatMap (bitsLE 7) septets
  let padded := bits ++ List.replicate ((8 - bits.length % 8) % 8) false
  (chunkExact 8 padded).map bitsVal

/-- Modelled from the spec: unpack octets into septets; trailing bits that do
not fill a whole septet are ignored. -/
def unpack7 (octets : List Nat) : List Nat :=
  (chunkExact 7 (concatMap (bitsLE 8) octets)).map bitsVal

/-- Modelled from the spec: `pdu.Encode7Bit` of the missing `pdu` package,
GSM alphabet translation layered on septet packing. -/
def Encode7Bit (text : GoStr) : List Nat := pack7 (concatMap encodeChar text)

/-- Modelled from the spec: `pdu.Decode7Bit` of the missing `pdu` package;
decoding is total. -/
def Decode7Bit (octets : List Nat) : GoStr := decodeSeptets (unpack7 octets)

/-! ## UCS-2 (modelled from the spec) -/

/-- Modelled from the spec: `pdu.EncodeUcs2` of the missing `pdu` package,
UTF-16 big-endian with surrogate pairs for astral code points. -/
def EncodeUcs2 (text : GoStr) : List Nat :=
  concatMap (fun c =>
    if c < 0x10000 then [c / 256 % 256, c % 256]
    else
      let v := c - 0x10000
      let hi := 0xD800 + v / 0x400
      let lo := 0xDC00 + v % 0x400
      [hi / 256, hi % 256, lo / 256, lo % 256]) text

/-- Pair up bytes into big-endian 16-bit units; odd length fails. -/
def ucs2Units : List Nat → Option (List Nat)
  | [] => some []
  | [_] => none
  | a :: b :: rest => (ucs2Units rest).map (fun t => (a * 256 + b) :: t)

/-- Recombine surrogate pairs into single code points. -/
def joinSurrogates : List Nat → List Nat
  | [] => []
  | [u] => [u]
  | u :: v :: rest =>
    if 0xD800 ≤ u ∧ u < 0xDC00 ∧ 0xDC00 ≤ v ∧ v < 0xE000 then
      (0x10000 + (u - 0xD800) * 0x400 + (v - 0xDC00)) :: joinSurrogates rest
    else u :: joinSurrogates (v :: rest)

/-- Modelled from the spec: `pdu.DecodeUcs2` of the missing `pdu` package.
Skips the user-data header from the front when the header flag is set;
odd length fails with the incorrect-size error. -/
def DecodeUcs2 (octets : List Nat) (hasHeader : Bool) : Except GoErr GoStr :=
  let data :=
    if hasHeader then
      match octets with
      | udhl :: _ => octets.drop (udhl + 1)
      | [] => []
    else octets
  match ucs2Units data with
  | none => .error .incorrectSize
  | some us => .ok (joinSurrogates us)

/-! ## Semi-octet digits and phone numbers (modelled from the spec) -/

/-- Modelled from the spec: value of one phone-number character. -/
def digitVal (c : Nat) : Nat :=
  if 48 ≤ c ∧ c ≤ 57 then c - 48
  else if c = 42 then 10
  else if c = 35 then 11
  else if c = 97 then 12
  else if c = 98 then 13
  else if c = 99 then 14
  else 15

/-- Modelled from the spec: character of one semi-octet digit value. -/
def digitChar (d : Nat) : Nat :=
  if d < 10 then 48 + d
  else if d = 10 then 42
  else if d = 11 then 35
  else if d = 12 then 97
  else if d = 13 then 98
  else if d = 14 then 99
  else 15

/-- Modelled from the spec: pack digit values pairwise into swapped-nibble
octets; an odd trailing digit gets a 0xF filler in the high nibble. -/
def encodeSemi : List Nat → List Nat
  | [] => []
  | [d] => [0xF * 16 + d % 16]
  | d1 :: d2 :: rest => ((d2 % 16) * 16 + d1 % 16) :: encodeSemi rest

/-- Nibbles of a semi-octet sequence in digit order. -/
def semiNibbles : List Nat → List Nat
  | [] => []
  | o :: rest => o % 16 :: o / 16 % 16 :: semiNibbles rest

/-- A phone number is a Go string of digit characters, possibly led by `+`. -/
abbrev PhoneNumber := GoStr

namespace PhoneNumber

/-- Modelled from the spec: `PhoneNumber.PDU`. Returns the digit count and
the type-of-address octet followed by the semi-octet digits; a leading `+`
selects the international TOA 0x91, otherwise 0x81. -/
def PDU (p : PhoneNumber) : Nat × List Nat :=
  if p.head? = some 43 then
    (p.tail.length, 0x91 :: encodeSemi (p.tail.map digitVal))
  else
    (p.length, 0x81 :: encodeSemi (p.map digitVal))

/-- Modelled from the spec: `PhoneNumber.ReadFrom`. Reads the TOA octet,
decodes the remaining semi-octet digits stripping 0xF fillers, and restores
the `+` when the TOA top nibble is 9. -/
def ReadFrom (octets : List Nat) : PhoneNumber :=
  match octets with
  | [] => []
  | toa :: rest =>
    let ds := ((semiNibbles rest).filter (fun d => d ≠ 15)).map digitChar
    if toa / 16 % 16 = 9 then 43 :: ds else ds

end PhoneNumber

/-! ## Timestamps (modelled from the spec) -/

/-- Modelled from the spec: the timestamp value carried by a Message — six
date/time fields plus a signed quarter-hour timezone offset. -/
structure Timestamp where
  year : Nat
  month : Nat
  day : Nat
  hour : Nat
  minute : Nat
  second : Nat
  tzQuarters : Int
  deriving DecidableEq, Repr

/-- The zero timestamp. -/
def Timestamp.zero : Timestamp := ⟨0, 0, 0, 0, 0, 0, 0⟩

/-- Swapped-nibble BCD of a two-digit value. -/
def swapBCD (v : Nat) : Nat := v % 10 * 16 + v / 10 % 10

/-- Inverse of the swapped-nibble BCD encoding. -/
def unswapBCD (o : Nat) : Nat := o % 16 * 10 + o / 16 % 16

/-- Modelled from the spec: timezone octet; the sign lives in bit 3 of the
high (tens) nibble before the swap. -/
def tzOctet (q : Int) : Nat :=
  q.natAbs % 10 * 16 + (q.natAbs / 10 % 10 + if q < 0 then 8 else 0)

/-- Modelled from the spec: decode the timezone octet. -/
def tzRead (o : Nat) : Int :=
  if o % 16 / 8 % 2 = 1 then -((o % 16 % 8 * 10 + o / 16 % 16 : Nat) : Int)
  else ((o % 16 % 8 * 10 + o / 16 % 16 : Nat) : Int)

namespace Timestamp

/-- Modelled from the spec: `Timestamp.PDU`, seven swapped-nibble BCD octets. -/
def PDU (t : Timestamp) : List Nat :=
  [swapBCD (t.year % 100), swapBCD t.month, swapBCD t.day,
   swapBCD t.hour, swapBCD t.minute, swapBCD t.second, tzOctet t.tzQuarters]

/-- Modelled from the spec: `Timestamp.ReadFrom` on the seven frame octets. -/
def ReadFrom (l : List Nat) : Timestamp :=
  { year := unswapBCD (l.getD 0 0)
    month := unswapBCD (l.getD 1 0)
    day := unswapBCD (l.getD 2 0)
    hour := unswapBCD (l.getD 3 0)
    minute := unswapBCD (l.getD 4 0)
    second := unswapBCD (l.getD 5 0)
    tzQuarters := tzRead (l.getD 6 0) }

end Timestamp

/-! ## Relative validity period (modelled from the spec) -/

/-- A validity period, in minutes. -/
abbrev ValidityPeriod := Nat

/-- Modelled from the spec: decode the one-octet relative validity period on
the piecewise scale of §4.7. -/
def vpRead (v : Nat) : ValidityPeriod :=
  if v ≤ 143 then (v + 1) * 5
  else if v ≤ 167 then 720 + (v - 143) * 30
  else if v ≤ 196 then (v - 166) * 1440
  else (v - 192) * 10080

/-- Modelled from the spec: `ValidityPeriod.Octet`, the inverse of `vpRead`
via the piecewise thresholds. -/
def vpOctet (m : ValidityPeriod) : Nat :=
  if m ≤ 720 then (if m ≤ 5 then 0 else m / 5 - 1)
  else if m ≤ 1440 then 143 + (m - 720) / 30
  else if m ≤ 43200 then 166 + m / 1440
  else 192 + min (m / 10080) 63

/-! ## User-data header (modelled from the spec) -/

/-- One information element of the user-data header. -/
abbrev UserDataHeader := List (Nat × List Nat)

/-- Modelled from the spec: serialize a user-data header: a UDHL byte
followed by (id, length, data) triples; an empty list yields no bytes. -/
def udhBytes (udh : UserDataHeader) : List Nat :=
  if udh = [] then []
  else
    let body := concatMap (fun e => e.1 % 256 :: e.2.length % 256 :: e.2) udh
    body.length % 256 :: body

/-- Worker for `parseIEs`, structurally recursive on a fuel bound. -/
def parseIEsGo : Nat → List Nat → Except GoErr UserDataHeader
  | _, [] => .ok []
  | _, [_] => .error .incorrectUDHLength
  | 0, _ :: _ :: _ => .error .incorrectUDHLength
  | fuel + 1, id :: len :: rest =>
    if rest.length < len then .error .incorrectUDHLength
    else
      match parseIEsGo fuel (rest.drop len) with
      | .error e => .error e
      | .ok t => .ok ((id, rest.take len) :: t)

/-- Modelled from the spec: parse the (id, length, data) triples of a
user-data header body, failing when a declared length overruns. -/
def parseIEs (l : List Nat) : Except GoErr UserDataHeader :=
  parseIEsGo l.length l

/-- Modelled from the spec: `UserDataHeader.ReadFrom` — read the UDHL from
the first user-data octet, fail when UDHL+1 exceeds the available bytes, and
parse the information elements. -/
def udhRead (l : List Nat) : Except GoErr UserDataHeader :=
  match l with
  | [] => .error .incorrectUDHLength
  | udhl :: rest =>
    if rest.length < udhl then .error .incorrectUDHLength
    else parseIEs (rest.take udhl)

/-! ## Frame codecs (modelled from the spec)

Each frame is the intermediate struct the façade fills; `Bytes` serializes it
and `FromBytes` parses it, returning the consumed byte count alongside the
result as the Go methods do. Bit layout of the first octet and the field
order follow §4.9 of the spec; the `MoreMessagesToSend` bit is stored
inverted on the wire. -/

/-- The smsDeliver frame struct of the source, with Go field names. -/
structure SmsDeliver where
  MessageTypeIndicator : Nat := 0
  MoreMessagesToSend : Bool := false
  LoopPrevention : Bool := false
  ReplyPath : Bool := false
  UserDataHeaderIndicator : Bool := false
  StatusReportIndication : Bool := false
  OriginatingAddress : List Nat := []
  ProtocolIdentifier : Nat := 0
  DataCodingScheme : Nat := 0
  ServiceCentreTimestamp : List Nat := []
  UserDataLength : Nat := 0
  UserData : List Nat := []
  deriving DecidableEq, Repr

/-- The smsSubmit frame struct of the source, with Go field names. -/
structure SmsSubmit where
  MessageTypeIndicator : Nat := 0
  RejectDuplicates : Bool := false
  ValidityPeriodFormat : Nat := 0
  ReplyPath : Bool := false
  UserDataHeaderIndicator : Bool := false
  StatusReportRequest : Bool := false
  MessageReference : Nat := 0
  DestinationAddress : List Nat := []
  ProtocolIdentifier : Nat := 0
  DataCodingScheme : Nat := 0
  ValidityPeriod : Nat := 0
  UserDataLength : Nat := 0
  UserData : List Nat := []
  deriving DecidableEq, Repr

/-- The smsStatusReport frame struct of the source, with Go field names.
The spec's StatusReport layout carries no data-coding-scheme octet, so the
`DataCodingScheme` field is neither serialized by `Bytes` nor assigned by
`FromBytes`: the encode branch of the source never sets it and the decode
branch always reads its zero value. -/
structure SmsStatusReport where
  MessageTypeIndicator : Nat := 0
  MoreMessagesToSend : Bool := false
  LoopPrevention : Bool := false
  UserDataHeaderIndicator : Bool := false
  StatusReportQualificator : Bool := false
  MessageReference : Nat := 0
  DestinationAddress : List Nat := []
  ServiceCentreTimestamp : List Nat := []
  DischargeTimestamp : List Nat := []
  Status : Nat := 0
  DataCodingScheme : Nat := 0
  UserDataLength : Nat := 0
  UserData : List Nat := []
  deriving DecidableEq, Repr

/-- Bit contribution of a flag. -/
def bitIf (b : Bool) (v : Nat) : Nat := if b then v else 0

namespace SmsDeliver

/-- Modelled from the spec: flag octet of a Deliver frame (MMS inverted). -/
def flagOctet (f : SmsDeliver) : Nat :=
  f.MessageTypeIndicator % 4 + bitIf (!f.MoreMessagesToSend) 4 +
    bitIf f.LoopPrevention 8 + bitIf f.StatusReportIndication 32 +
    bitIf f.UserDataHeaderIndicator 64 + bitIf f.ReplyPath 128

/-- Modelled from the spec: `smsDeliver.Bytes`. -/
def Bytes (f : SmsDeliver) : List Nat :=
  f.flagOctet :: f.OriginatingAddress ++
    f.ProtocolIdentifier :: f.DataCodingScheme :: f.ServiceCentreTimestamp ++
    f.UserDataLength :: f.UserData

/-- Modelled from the spec: `smsDeliver.FromBytes`; returns consumed bytes
and the frame, rejecting short input with the incorrect-size error. -/
def FromBytes (l : List Nat) : Nat × Except GoErr SmsDeliver :=
  if l.length < 2 then (l.length, .error .incorrectSize)
  else if (l.drop 2).length < blocks (l.getD 1 0) 2 + 1 then
    (2 + (l.drop 2).length, .error .incorrectSize)
  else if ((l.drop 2).drop (blocks (l.getD 1 0) 2 + 1)).length < 10 then
    (2 + (blocks (l.getD 1 0) 2 + 1) +
      ((l.drop 2).drop (blocks (l.getD 1 0) 2 + 1)).length,
     .error .incorrectSize)
  else
    (l.length,
     .ok { MessageTypeIndicator := l.getD 0 0 % 4
           MoreMessagesToSend := l.getD 0 0 / 4 % 2 = 0
           LoopPrevention := l.getD 0 0 / 8 % 2 = 1
           StatusReportIndication := l.getD 0 0 / 32 % 2 = 1
           UserDataHeaderIndicator := l.getD 0 0 / 64 % 2 = 1
           ReplyPath := l.getD 0 0 / 128 % 2 = 1
           OriginatingAddress :=
             l.getD 1 0 :: (l.drop 2).take (blocks (l.getD 1 0) 2 + 1)
           ProtocolIdentifier :=
             ((l.drop 2).drop (blocks (l.getD 1 0) 2 + 1)).getD 0 0
           DataCodingScheme :=
             ((l.drop 2).drop (blocks (l.getD 1 0) 2 + 1)).getD 1 0
           ServiceCentreTimestamp :=
             (((l.drop 2).drop (blocks (l.getD 1 0) 2 + 1)).drop 2).take 7
           UserDataLength :=
             ((l.drop 2).drop (blocks (l.getD 1 0) 2 + 1)).getD 9 0
           UserData :=
             ((l.drop 2).drop (blocks (l.getD 1 0) 2 + 1)).drop 10 })

end SmsDeliver

namespace SmsSubmit

/-- Modelled from the spec: flag octet of a Submit frame. -/
def flagOctet (f : SmsSubmit) : Nat :=
  f.MessageTypeIndicator % 4 + bitIf f.RejectDuplicates 4 +
    f.ValidityPeriodFormat % 4 * 8 + bitIf f.StatusReportRequest 32 +
    bitIf f.UserDataHeaderIndicator 64 + bitIf f.ReplyPath 128

/-- Modelled from the spec: `smsSubmit.Bytes`; the validity-period octet is
present exactly when the format is not field-not-present. -/
def Bytes (f : SmsSubmit) : List Nat :=
  f.flagOctet :: f.MessageReference % 256 :: f.DestinationAddress ++
    f.ProtocolIdentifier :: f.DataCodingScheme ::
      ((if f.ValidityPeriodFormat % 4 ≠ 0 then [f.ValidityPeriod % 256] else []) ++
        f.UserDataLength :: f.UserData)

/-- Modelled from the spec: `smsSubmit.FromBytes`; the validity-period octet
is read exactly when the VPF bits of the flag octet are non-zero. -/
def FromBytes (l : List Nat) : Nat × Except GoErr SmsSubmit :=
  if l.length < 3 then (l.length, .error .incorrectSize)
  else if (l.drop 3).length < blocks (l.getD 2 0) 2 + 1 then
    (3 + (l.drop 3).length, .error .incorrectSize)
  else if ((l.drop 3).drop (blocks (l.getD 2 0) 2 + 1)).length <
      (if l.getD 0 0 / 8 % 4 ≠ 0 then 4 else 3) then
    (3 + (blocks (l.getD 2 0) 2 + 1) +
      ((l.drop 3).drop (blocks (l.getD 2 0) 2 + 1)).length,
     .error .incorrectSize)
  else
    (l.length,
     .ok { MessageTypeIndicator := l.getD 0 0 % 4
           RejectDuplicates := l.getD 0 0 / 4 % 2 = 1
           ValidityPeriodFormat := l.getD 0 0 / 8 % 4
           StatusReportRequest := l.getD 0 0 / 32 % 2 = 1
           UserDataHeaderIndicator := l.getD 0 0 / 64 % 2 = 1
           ReplyPath := l.getD 0 0 / 128 % 2 = 1
           MessageReference := l.getD 1 0
           DestinationAddress :=
             l.getD 2 0 :: (l.drop 3).take (blocks (l.getD 2 0) 2 + 1)
           ProtocolIdentifier :=
             ((l.drop 3).drop (blocks (l.getD 2 0) 2 + 1)).getD 0 0
           DataCodingScheme :=
             ((l.drop 3).drop (blocks (l.getD 2 0) 2 + 1)).getD 1 0
           ValidityPeriod :=
             if l.getD 0 0 / 8 % 4 ≠ 0 then
               ((l.drop 3).drop (blocks (l.getD 2 0) 2 + 1)).getD 2 0
             else 0
           UserDataLength :=
             ((l.drop 3).drop (blocks (l.getD 2 0) 2 + 1)).getD
               (if l.getD 0 0 / 8 % 4 ≠ 0 then 3 else 2) 0
           UserData :=
             ((l.drop 3).drop (blocks (l.getD 2 0) 2 + 1)).drop
               (if l.getD 0 0 / 8 % 4 ≠ 0 then 4 else 3) })

end SmsSubmit

namespace SmsStatusReport

/-- Modelled from the spec: flag octet of a StatusReport frame
(MMS inverted). -/
def flagOctet (f : SmsStatusReport) : Nat :=
  f.MessageTypeIndicator % 4 + bitIf (!f.MoreMessagesToSend) 4 +
    bitIf f.LoopPrevention 8 + bitIf f.StatusReportQualificator 32 +
    bitIf f.UserDataHeaderIndicator 64

/-- Modelled from the spec: `smsStatusReport.Bytes`; a zero
parameter-indicator octet precedes the user-data length. -/
def Bytes (f : SmsStatusReport) : List Nat :=
  f.flagOctet :: f.MessageReference % 256 :: f.DestinationAddress ++
    f.ServiceCentreTimestamp ++ f.DischargeTimestamp ++
      f.Status % 256 :: 0 :: f.UserDataLength :: f.UserData

/-- Modelled from the spec: `smsStatusReport.FromBytes`; the
parameter-indicator octet and user data are optional trailers. -/
def FromBytes (l : List Nat) : Nat × Except GoErr SmsStatusReport :=
  if l.length < 3 then (l.length, .error .incorrectSize)
  else if (l.drop 3).length < blocks (l.getD 2 0) 2 + 1 then
    (3 + (l.drop 3).length, .error .incorrectSize)
  else if ((l.drop 3).drop (blocks (l.getD 2 0) 2 + 1)).length < 15 then
    (3 + (blocks (l.getD 2 0) 2 + 1) +
      ((l.drop 3).drop (blocks (l.getD 2 0) 2 + 1)).length,
     .error .incorrectSize)
  else
    (l.length,
     .ok { MessageTypeIndicator := l.getD 0 0 % 4
           MoreMessagesToSend := l.getD 0 0 / 4 % 2 = 0
           LoopPrevention := l.getD 0 0 / 8 % 2 = 1
           StatusReportQualificator := l.getD 0 0 / 32 % 2 = 1
           UserDataHeaderIndicator := l.getD 0 0 / 64 % 2 = 1
           MessageReference := l.getD 1 0
           DestinationAddress :=
             l.getD 2 0 :: (l.drop 3).take (blocks (l.getD 2 0) 2 + 1)
           ServiceCentreTimestamp :=
             ((l.drop 3).drop (blocks (l.getD 2 0) 2 + 1)).take 7
           DischargeTimestamp :=
             (((l.drop 3).drop (blocks (l.getD 2 0) 2 + 1)).drop 7).take 7
           Status := ((l.drop 3).drop (blocks (l.getD 2 0) 2 + 1)).getD 14 0
           UserDataLength :=
             ((l.drop 3).drop (blocks (l.getD 2 0) 2 + 1)).getD 16 0
           UserData :=
             ((l.drop 3).drop (blocks (l.getD 2 0) 2 + 1)).drop 17 })

end SmsStatusReport

/-! ## The Message façade (embedded from the source) -/

/-- Shorthand for the user-data-header value, to annotate the Message field
of the same name. -/
abbrev UDHList := UserDataHeader

/-- Embeds the `Message` struct of the source, with Go field names. Message
types are Deliver = 0, Submit = 1, StatusReport = 2; encodings are
Gsm7Bit = 0x00, UCS2 = 0x08, Gsm7Bit_2 = 0xF0; validity-period formats are
FieldNotPresent = 0x00, Enhanced = 0x01, Relative = 0x02, Absolute = 0x03
(the wire VPF bit patterns). -/
structure Message where
  MsgType : Nat := 0
  Encoding : Nat := 0
  VP : ValidityPeriod := 0
  VPFormat : Nat := 0
  ServiceCenterTime : Timestamp := .zero
  DischargeTime : Timestamp := .zero
  ServiceCenterAddress : PhoneNumber := []
  Address : PhoneNumber := []
  Text : GoStr := []
  UserDataHeader : UDHList := []
  MessageReference : Nat := 0
  Status : Nat := 0
  ReplyPathExists : Bool := false
  UserDataStartsWithHeader : Bool := false
  StatusReportIndication : Bool := false
  StatusReportRequest : Bool := false
  StatusReportQualificator : Bool := false
  MoreMessagesToSend : Bool := false
  LoopPrevention : Bool := false
  RejectDuplicates : Bool := false
  deriving DecidableEq, Repr

/-- The zero Message that `*s = Message{}` produces. -/
def Message.empty : Message := {}

/-- Embeds the encoding switch shared by the three encode branches:
user data and the user-data-length octet. For the 7-bit encodings the UDL
octet is `byte(len(s.Text))`, Go's UTF-8 byte count of the text; for UCS-2
it is the user-data byte count. Unknown encodings fail. -/
def userDataFor (enc : Nat) (text : GoStr) : Except GoErr (List Nat × Nat) :=
  if enc = 0 ∨ enc = 0xF0 then .ok (Encode7Bit text, goLen text % 256)
  else if enc = 8 then
    .ok (EncodeUcs2 text, (EncodeUcs2 text).length % 256)
  else .error .unknownEncoding

/-- Embeds the SMSC prefix of `Message.PDU`: a single zero octet for an
empty service-center address, otherwise the octet count followed by the
encoded address. -/
def smscField (m : Message) : List Nat :=
  if m.ServiceCenterAddress.length < 1 then [0]
  else
    m.ServiceCenterAddress.PDU.2.length % 256 :: m.ServiceCenterAddress.PDU.2

/-- Embeds the TP-Address field written by the encode branches: the digit
count followed by the encoded address. -/
def addrField (p : PhoneNumber) : List Nat :=
  p.PDU.1 % 256 :: p.PDU.2

/-- Embeds the Deliver branch of `Message.PDU` up to the frame struct. -/
def deliverFrame (m : Message) : Except GoErr SmsDeliver :=
  (userDataFor m.Encoding m.Text).map fun p =>
    { MessageTypeIndicator := m.MsgType % 256
      MoreMessagesToSend := m.MoreMessagesToSend
      LoopPrevention := m.LoopPrevention
      ReplyPath := m.ReplyPathExists
      UserDataHeaderIndicator := m.UserDataStartsWithHeader
      StatusReportIndication := m.StatusReportIndication
      OriginatingAddress := addrField m.Address
      ProtocolIdentifier := 0
      DataCodingScheme := m.Encoding % 256
      ServiceCentreTimestamp := m.ServiceCenterTime.PDU
      UserDataLength := p.2
      UserData := p.1 }

/-- Embeds the Submit branch of `Message.PDU` up to the frame struct; the
validity-period switch precedes the encoding switch, and Absolute and
Enhanced formats fail with the non-relative error. -/
def submitFrame (m : Message) : Except GoErr SmsSubmit :=
  if m.VPFormat = 1 ∨ m.VPFormat = 3 then .error .nonRelative
  else
    (userDataFor m.Encoding m.Text).map fun p =>
      { MessageTypeIndicator := m.MsgType % 256
        RejectDuplicates := m.RejectDuplicates
        ValidityPeriodFormat := m.VPFormat % 256
        ReplyPath := m.ReplyPathExists
        UserDataHeaderIndicator := m.UserDataStartsWithHeader
        StatusReportRequest := m.StatusReportRequest
        MessageReference := m.MessageReference % 256
        DestinationAddress := addrField m.Address
        ProtocolIdentifier := 0
        DataCodingScheme := m.Encoding % 256
        ValidityPeriod := if m.VPFormat = 2 then vpOctet m.VP % 256 else 0
        UserDataLength := p.2
        UserData := p.1 }

/-- Embeds the StatusReport branch of `Message.PDU` up to the frame
struct. -/
def statusFrame (m : Message) : Except GoErr SmsStatusReport :=
  (userDataFor m.Encoding m.Text).map fun p =>
    { MessageTypeIndicator := m.MsgType % 256
      MoreMessagesToSend := m.MoreMessagesToSend
      LoopPrevention := m.LoopPrevention
      UserDataHeaderIndicator := m.UserDataStartsWithHeader
      StatusReportQualificator := m.StatusReportQualificator
      MessageReference := m.MessageReference % 256
      DestinationAddress := addrField m.Address
      ServiceCentreTimestamp := m.ServiceCenterTime.PDU
      DischargeTimestamp := m.DischargeTime.PDU
      Status := m.Status % 256
      UserDataLength := p.2
      UserData := p.1 }

/-- Embeds `Message.PDU` from the source: the SMSC prefix followed by the
serialized frame of the message type, together with the TPDU byte count;
unknown message types fail. -/
def Message.PDU (m : Message) : Except GoErr (Nat × List Nat) :=
  let pre := smscField m
  if m.MsgType = 0 then
    (deliverFrame m).map fun f => (f.Bytes.length, pre ++ f.Bytes)
  else if m.MsgType = 1 then
    (submitFrame m).map fun f => (f.Bytes.length, pre ++ f.Bytes)
  else if m.MsgType = 2 then
    (statusFrame m).map fun f => (f.Bytes.length, pre ++ f.Bytes)
  else .error .unknownMessageType

/-- Result of `Message.ReadFrom`: the byte count, the message state on
return, and the error, if any, as the Go method returns them. -/
structure ReadResult where
  n : Nat
  msg : Message
  err : Option GoErr
  deriving DecidableEq, Repr

/-- Embeds the text-decoding switch shared by the decode branches. A `none`
result models the panic of `cutStr` on a rune count below `n`. -/
def readText (m : Message) (udl : Nat) (ud : List Nat) (n : Nat) :
    Option ReadResult :=
  if m.Encoding = 0 ∨ m.Encoding = 0xF0 then
    match cutStr (Decode7Bit ud) udl with
    | none => none
    | some t => some ⟨n, { m with Text := t }, none⟩
  else if m.Encoding = 8 then
    match DecodeUcs2 ud m.UserDataStartsWithHeader with
    | .error e => some ⟨n, m, some e⟩
    | .ok t => some ⟨n, { m with Text := t }, none⟩
  else some ⟨0, m, some .unknownEncoding⟩

/-- Embeds the Deliver branch of `Message.ReadFrom`. -/
def readDeliver (m1 : Message) (tp : List Nat) (base : Nat) :
    Option ReadResult :=
  let pr := SmsDeliver.FromBytes tp
  let n := base + pr.1
  match pr.2 with
  | .error e => some ⟨n, m1, some e⟩
  | .ok f =>
    let m2 := { m1 with MoreMessagesToSend := f.MoreMessagesToSend
                        LoopPrevention := f.LoopPrevention
                        ReplyPathExists := f.ReplyPath
                        UserDataStartsWithHeader := f.UserDataHeaderIndicator }
    let next := fun (m2' : Message) =>
      let m3 := { m2' with
        StatusReportIndication := f.StatusReportIndication
        Address := PhoneNumber.ReadFrom f.OriginatingAddress.tail
        Encoding := f.DataCodingScheme
        ServiceCenterTime := Timestamp.ReadFrom f.ServiceCentreTimestamp }
      readText m3 f.UserDataLength f.UserData n
    if f.UserDataHeaderIndicator then
      match udhRead f.UserData with
      | .error e => some ⟨n, m2, some e⟩
      | .ok h => next { m2 with UserDataHeader := h }
    else next m2

/-- Embeds the Submit branch of `Message.ReadFrom`. The switch on the
validity-period format runs on the freshly reset message — before the wire
format is assigned — and the user-data header is never parsed. -/
def readSubmit (m1 : Message) (tp : List Nat) (base : Nat) :
    Option ReadResult :=
  let pr := SmsSubmit.FromBytes tp
  let n := base + pr.1
  match pr.2 with
  | .error e => some ⟨n, m1, some e⟩
  | .ok f =>
    let m2 := { m1 with RejectDuplicates := f.RejectDuplicates }
    if m2.VPFormat = 3 ∨ m2.VPFormat = 1 then some ⟨n, m2, some .nonRelative⟩
    else
      let m4 := { m2 with
        VPFormat := f.ValidityPeriodFormat
        MessageReference := f.MessageReference
        ReplyPathExists := f.ReplyPath
        UserDataStartsWithHeader := f.UserDataHeaderIndicator
        StatusReportRequest := f.StatusReportRequest
        Address := PhoneNumber.ReadFrom f.DestinationAddress.tail
        Encoding := f.DataCodingScheme }
      let m5 := if m4.VPFormat ≠ 0 then
          { m4 with VP := vpRead f.ValidityPeriod }
        else m4
      readText m5 f.UserDataLength f.UserData n

/-- Embeds the StatusReport branch of `Message.ReadFrom`. -/
def readStatus (m1 : Message) (tp : List Nat) (base : Nat) :
    Option ReadResult :=
  let pr := SmsStatusReport.FromBytes tp
  let n := base + pr.1
  match pr.2 with
  | .error e => some ⟨n, m1, some e⟩
  | .ok f =>
    let m2 := { m1 with MessageReference := f.MessageReference
                        MoreMessagesToSend := f.MoreMessagesToSend
                        LoopPrevention := f.LoopPrevention
                        UserDataStartsWithHeader := f.UserDataHeaderIndicator }
    let next := fun (m2' : Message) =>
      let m3 := { m2' with
        StatusReportQualificator := f.StatusReportQualificator
        Status := f.Status
        Address := PhoneNumber.ReadFrom f.DestinationAddress.tail
        Encoding := f.DataCodingScheme
        ServiceCenterTime := Timestamp.ReadFrom f.ServiceCentreTimestamp
        DischargeTime := Timestamp.ReadFrom f.DischargeTimestamp }
      readText m3 f.UserDataLength f.UserData n
    if f.UserDataHeaderIndicator then
      match udhRead f.UserData with
      | .error e => some ⟨n, m2, some e⟩
      | .ok h => next { m2 with UserDataHeader := h }
    else next m2

/-- Embeds `Message.ReadFrom` from the source: reset the message, read the
SMSC prefix (rejecting a length over 16), peek the message-type octet and
dispatch to the branch for its MTI bits. -/
def Message.ReadFrom (octets : List Nat) : Option ReadResult :=
  match octets with
  | [] => some ⟨1, Message.empty, some .eof⟩
  | scLen :: rest =>
    if 16 < scLen then some ⟨0, Message.empty, some .incorrectSize⟩
    else if rest.length < scLen then
      some ⟨1 + rest.length, Message.empty, some .unexpectedEOF⟩
    else
      let m0 : Message :=
        { ServiceCenterAddress := PhoneNumber.ReadFrom (rest.take scLen) }
      match rest.drop scLen with
      | [] => some ⟨1 + scLen + 1, m0, some .eof⟩
      | msgType :: _ =>
        let m1 := { m0 with MsgType := msgType % 4 }
        let tp := rest.drop scLen
        let base := 1 + scLen
        if m1.MsgType = 0 then readDeliver m1 tp base
        else if m1.MsgType = 1 then readSubmit m1 tp base
        else if m1.MsgType = 2 then readStatus m1 tp base
        else some ⟨base, m1, some .unknownMessageType⟩

/-! ## Codable subsets and text predicates -/

/-- Characters of the GSM default table that occupy a single septet and a
single UTF-8 byte (everything in the table below code point 128, except the
escape sentinel). -/
def gsmBasic (c : Nat) : Bool :=
  decide (c < 128) && decide (c ≠ 27) && gsmTable.contains c

/-- A text whose characters are all single-septet, single-byte GSM
characters. -/
def basicText (t : GoStr) : Prop := ∀ c ∈ t, gsmBasic c = true

instance decBasicText (t : GoStr) : Decidable (basicText t) :=
  inferInstanceAs (Decidable (∀ c ∈ t, gsmBasic c = true))

/-- Code points of the basic multilingual plane outside the surrogate
range. -/
def bmpChar (c : Nat) : Prop := c < 0xD800 ∨ (0xE000 ≤ c ∧ c < 0x10000)

/-- A text of BMP non-surrogate code points. -/
def bmpText (t : GoStr) : Prop := ∀ c ∈ t, bmpChar c

instance decBmpChar (c : Nat) : Decidable (bmpChar c) :=
  inferInstanceAs (Decidable (c < 0xD800 ∨ (0xE000 ≤ c ∧ c < 0x10000)))

instance decBmpText (t : GoStr) : Decidable (bmpText t) :=
  inferInstanceAs (Decidable (∀ c ∈ t, bmpChar c))

/-- Characters valid in a phone-number digit string. -/
def isPhoneDigit (c : Nat) : Bool :=
  (decide (48 ≤ c) && decide (c ≤ 57)) || decide (c = 42) || decide (c = 35) ||
    decide (c = 97) || decide (c = 98) || decide (c = 99)

/-- The digit part of a phone number (what follows an optional `+`). -/
def pnDigits (p : PhoneNumber) : GoStr :=
  if p.head? = some 43 then p.tail else p

/-- A phone number whose digit part holds only valid digit characters. -/
def pnValid (p : PhoneNumber) : Prop := ∀ c ∈ pnDigits p, isPhoneDigit c = true

instance decPnValid (p : PhoneNumber) : Decidable (pnValid p) :=
  inferInstanceAs (Decidable (∀ c ∈ pnDigits p, isPhoneDigit c = true))

/-- Timestamp fields representable by the seven-octet encoding. -/
def tsOK (t : Timestamp) : Prop :=
  t.year < 100 ∧ t.month < 100 ∧ t.day < 100 ∧ t.hour < 100 ∧
    t.minute < 100 ∧ t.second < 100 ∧ t.tzQuarters.natAbs < 80

instance decTsOK (t : Timestamp) : Decidable (tsOK t) :=
  inferInstanceAs (Decidable (t.year < 100 ∧ t.month < 100 ∧ t.day < 100 ∧
    t.hour < 100 ∧ t.minute < 100 ∧ t.second < 100 ∧ t.tzQuarters.natAbs < 80))

/-- A phone number acceptable as an SMSC address: valid digits, and few
enough that the encoded form fits the 16-octet bound of the decoder. -/
def scaOK (p : PhoneNumber) : Prop :=
  pnValid p ∧ (pnDigits p).length ≤ 30

/-- A phone number acceptable as a TP address: valid digits, digit count
within one octet. -/
def addrOK (p : PhoneNumber) : Prop :=
  pnValid p ∧ (pnDigits p).length ≤ 255

/-- The supported subset for Deliver messages: fields the Deliver frame does
not carry are at their zero values, there is no user-data header, addresses
and timestamp are representable, and the text suits its encoding. -/
def deliverCodable (m : Message) : Prop :=
  m.MsgType = 0 ∧ (m.Encoding = 0 ∨ m.Encoding = 0xF0 ∨ m.Encoding = 8) ∧
  (if m.Encoding = 8 then bmpText m.Text
   else basicText m.Text ∧ m.Text.length ≤ 255) ∧
  scaOK m.ServiceCenterAddress ∧ addrOK m.Address ∧
  tsOK m.ServiceCenterTime ∧
  m.UserDataStartsWithHeader = false ∧ m.UserDataHeader = [] ∧
  m.VP = 0 ∧ m.VPFormat = 0 ∧ m.DischargeTime = Timestamp.zero ∧
  m.MessageReference = 0 ∧ m.Status = 0 ∧ m.StatusReportRequest = false ∧
  m.StatusReportQualificator = false ∧ m.RejectDuplicates = false

/-- The supported subset for Submit messages: fields the Submit frame does
not carry are at their zero values, there is no user-data header, the
validity period is absent or relative and exactly representable, addresses
are representable, and the text suits its encoding. -/
def submitCodable (m : Message) : Prop :=
  m.MsgType = 1 ∧ (m.Encoding = 0 ∨ m.Encoding = 0xF0 ∨ m.Encoding = 8) ∧
  (if m.Encoding = 8 then bmpText m.Text
   else basicText m.Text ∧ m.Text.length ≤ 255) ∧
  scaOK m.ServiceCenterAddress ∧ addrOK m.Address ∧
  m.MessageReference < 256 ∧
  (m.VPFormat = 0 ∧ m.VP = 0 ∨
    m.VPFormat = 2 ∧ vpRead (vpOctet m.VP) = m.VP) ∧
  m.UserDataStartsWithHeader = false ∧ m.UserDataHeader = [] ∧
  m.ServiceCenterTime = Timestamp.zero ∧ m.DischargeTime = Timestamp.zero ∧
  m.Status = 0 ∧ m.StatusReportIndication = false ∧
  m.StatusReportQualificator = false ∧ m.MoreMessagesToSend = false ∧
  m.LoopPrevention = false

/-- The supported subset for StatusReport messages: fields the frame does
not carry are at their zero values, there is no user-data header, the
encoding is the 7-bit default — the only one the decode branch can see,
since the frame carries no data-coding-scheme octet — addresses and both
timestamps are representable, and the text is GSM-basic. -/
def statusCodable (m : Message) : Prop :=
  m.MsgType = 2 ∧ m.Encoding = 0 ∧
  basicText m.Text ∧ m.Text.length ≤ 255 ∧
  scaOK m.ServiceCenterAddress ∧ addrOK m.Address ∧
  tsOK m.ServiceCenterTime ∧ tsOK m.DischargeTime ∧
  m.MessageReference < 256 ∧ m.Status < 256 ∧
  m.UserDataStartsWithHeader = false ∧ m.UserDataHeader = [] ∧
  m.VP = 0 ∧ m.VPFormat = 0 ∧ m.ReplyPathExists = false ∧
  m.StatusReportIndication = false ∧ m.StatusReportRequest = false ∧
  m.RejectDuplicates = false

/-! ## Lemmas: bit lists and chunking -/

theorem bitsLE_length (k n : Nat) : (bitsLE k n).length = k := by
  induction k generalizing n with
  | zero => rfl
  | succ k ih => simp [bitsLE, ih]

theorem bitsVal_bitsLE (k n : Nat) : bitsVal (bitsLE k n) = n % 2 ^ k := by
  induction k generalizing n with
  | zero => simp [bitsLE, bitsVal, Nat.mod_one]
  | succ k ih =>
    simp only [bitsLE, bitsVal, ih]
    rw [Nat.pow_succ, Nat.mul_comm (2 ^ k) 2, Nat.mod_mul]
    rcases Nat.mod_two_eq_zero_or_one n with h | h <;> simp [h]

theorem bitsLE_bitsVal (l : List Bool) : bitsLE l.length (bitsVal l) = l := by
  induction l with
  | nil => rfl
  | cons b t ih =>
    have hb : decide (((if b then 1 else 0) + 2 * bitsVal t) % 2 = 1) = b := by
      cases b <;> simp [Nat.add_mul_mod_self_left]
    have hd : ((if b then 1 else 0) + 2 * bitsVal t) / 2 = bitsVal t := by
      cases b
      · simp
      · show (1 + 2 * bitsVal t) / 2 = bitsVal t
        omega
    simp only [List.length_cons, bitsLE, bitsVal, hb, hd, ih]

theorem concatMap_append (f : α → List β) (a b : List α) :
    concatMap f (a ++ b) = concatMap f a ++ concatMap f b := by
  induction a with
  | nil => rfl
  | cons x xs ih => simp [concatMap, ih]

theorem concatMap_length (f : α → List β) (k : Nat) (l : List α)
    (h : ∀ x ∈ l, (f x).length = k) : (concatMap f l).length = k * l.length := by
  induction l with
  | nil => simp [concatMap]
  | cons x xs ih =>
    simp only [concatMap, List.length_append, List.length_cons]
    rw [h x (by simp), ih (fun y hy => h y (by simp [hy]))]
    ring

theorem chunkGo_congr (k : Nat) (fuel fuel' : Nat) (l : List Bool)
    (h : l.length ≤ fuel) (h' : l.length ≤ fuel') :
    chunkGo k fuel l = chunkGo k fuel' l := by
  induction fuel generalizing fuel' l with
  | zero =>
    have hl : l = [] := List.length_eq_zero.mp (by omega)
    subst hl
    cases fuel' with
    | zero => rfl
    | succ fuel' =>
      simp only [chunkGo, List.length_nil]
      rw [if_neg (by omega)]
  | succ fuel ih =>
    cases fuel' with
    | zero =>
      have hl : l = [] := List.length_eq_zero.mp (by omega)
      subst hl
      simp only [chunkGo, List.length_nil]
      rw [if_neg (by omega)]
    | succ fuel' =>
      simp only [chunkGo]
      split
      · next hc =>
        rw [ih fuel' (l.drop k) (by simp only [List.length_drop]; omega)
            (by simp only [List.length_drop]; omega)]
      · rfl

theorem chunkExact_eq (k : Nat) (l : List Bool) :
    chunkExact k l =
      if 0 < k ∧ k ≤ l.length then l.take k :: chunkExact k (l.drop k) else [] := by
  unfold chunkExact
  cases l with
  | nil =>
    simp only [List.length_nil, chunkGo]
    rw [if_neg (by omega)]
  | cons x xs =>
    simp only [List.length_cons, chunkGo]
    split
    · next hc =>
      rw [chunkGo_congr k xs.length ((x :: xs).drop k).length ((x :: xs).drop k)
          (by simp only [List.length_drop, List.length_cons]; omega) (le_refl _)]
    · rfl

theorem chunkExact_nil (k : Nat) : chunkExact k [] = [] := rfl

theorem chunkExact_small (k : Nat) (l : List Bool) (h : l.length < k) :
    chunkExact k l = [] := by
  rw [chunkExact_eq]
  simp only [ite_eq_right_iff]
  intro hc
  omega

theorem chunkExact_cons (k : Nat) (c r : List Bool) (hk : 0 < k)
    (hc : c.length = k) : chunkExact k (c ++ r) = c :: chunkExact k (r) := by
  rw [chunkExact_eq]
  have hlen : k ≤ (c ++ r).length := by simp [List.length_append]; omega
  simp only [hk, hlen, and_self, if_true]
  subst hc
  rw [List.take_left, List.drop_left]

theorem chunkExact_concatMap (k : Nat) (f : α → List Bool) (l : List α)
    (r : List Bool) (hk : 0 < k) (h : ∀ x ∈ l, (f x).length = k) :
    chunkExact k (concatMap f l ++ r) = l.map f ++ chunkExact k r := by
  induction l with
  | nil => simp [concatMap]
  | cons x xs ih =>
    simp only [concatMap, List.map_cons, List.append_assoc, List.cons_append]
    rw [chunkExact_cons k (f x) _ hk (h x (by simp)),
        ih (fun y hy => h y (by simp [hy]))]

theorem concatMap_chunkExact_id (k : Nat) (hk : 0 < k) :
    ∀ fuel l, l.length ≤ fuel → l.length % k = 0 →
      concatMap (bitsLE k) ((chunkExact k l).map bitsVal) = l := by
  intro fuel
  induction fuel with
  | zero =>
    intro l hl _
    have : l = [] := List.length_eq_zero.mp (by omega)
    subst this
    simp [chunkExact_nil, concatMap]
  | succ fuel ih =>
    intro l hl hm
    rcases Nat.eq_zero_or_pos l.length with h0 | hpos
    · have : l = [] := List.length_eq_zero.mp h0
      subst this
      simp [chunkExact_nil, concatMap]
    · have hkl : k ≤ l.length := by
        by_contra hlt
        push_neg at hlt
        rw [Nat.mod_eq_of_lt hlt] at hm
        omega
      rw [chunkExact_eq]
      simp only [hk, hkl, and_self, if_true, List.map_cons, concatMap]
      have htk : (l.take k).length = k := by
        simp only [List.length_take]
        omega
      have h1 : bitsLE k (bitsVal (l.take k)) = l.take k := by
        have h2 := bitsLE_bitsVal (l.take k)
        rwa [htk] at h2
      have hd : (l.drop k).length % k = 0 := by
        have h2 := Nat.add_mod_right (l.length - k) k
        rw [Nat.sub_add_cancel hkl] at h2
        rw [hm] at h2
        simp only [List.length_drop]
        exact h2.symm
      rw [h1, ih (l.drop k) (by simp only [List.length_drop]; omega) hd]
      exact List.take_append_drop k l

theorem bitsVal_replicate_false (p : Nat) :
    bitsVal (List.replicate p false) = 0 := by
  induction p with
  | zero => rfl
  | succ p ih => simp [List.replicate, bitsVal, ih]

/-- Packing then unpacking restores the septets, with one spurious zero
septet appended exactly when the septet count is 7 modulo 8. -/
theorem unpack7_pack7 (s : List Nat) (h : ∀ x ∈ s, x < 128) :
    unpack7 (pack7 s) = s ++ (if s.length % 8 = 7 then [0] else []) := by
  unfold pack7 unpack7
  have hbl : (concatMap (bitsLE 7) s).length = 7 * s.length :=
    concatMap_length _ 7 s (fun x _ => bitsLE_length 7 x)
  set bits := concatMap (bitsLE 7) s with hbits
  set p := (8 - bits.length % 8) % 8 with hp
  set padded := bits ++ List.replicate p false with hpadded
  have hplen : padded.length = bits.length + p := by
    simp [hpadded, List.length_append, List.length_replicate]
  have hpmod : padded.length % 8 = 0 := by
    rw [hplen]
    omega
  rw [concatMap_chunkExact_id 8 (by omega) padded.length padded (le_refl _) hpmod]
  rw [hpadded, hbits, chunkExact_concatMap 7 (bitsLE 7) s _ (by omega)
      (fun x _ => bitsLE_length 7 x)]
  have hmap : (s.map (bitsLE 7)).map bitsVal = s := by
    rw [List.map_map]
    conv_rhs => rw [← List.map_id s]
    refine List.map_congr_left ?_
    intro x hx
    simp only [Function.comp_apply, bitsVal_bitsLE, id]
    exact Nat.mod_eq_of_lt (by have := h x hx; norm_num; omega)
  simp only [List.map_append, hmap]
  congr 1
  have hple : p < 8 := by
    rw [hp]
    omega
  rcases Nat.lt_or_ge p 7 with h7 | h7
  · have h1 : chunkExact 7 (List.replicate p false) = [] :=
      chunkExact_small 7 _ (by simp only [List.length_replicate]; omega)
    have h2 : s.length % 8 ≠ 7 := by
      rw [hp, hbl] at h7
      omega
    simp [h1, h2]
  · have hp7 : p = 7 := by omega
    have h2 : s.length % 8 = 7 := by
      rw [hp, hbl] at hp7
      omega
    have h1 : chunkExact 7 (List.replicate 7 false) =
        [List.replicate 7 false] := by
      have hc := chunkExact_cons 7 (List.replicate 7 false) [] (by omega)
        (by simp [List.length_replicate])
      simpa [chunkExact_nil] using hc
    rw [hp7, h1]
    simp [h2]
    decide

/-! ## Lemmas: GSM alphabet text -/

set_option maxRecDepth 4000 in
theorem gsmBasic_facts : ∀ c < 128, gsmBasic c = true →
    encodeChar c = [gsmTable.indexOf c] ∧ gsmTable.indexOf c < 128 ∧
      gsmTable.indexOf c ≠ 27 ∧ gsmTable.getD (gsmTable.indexOf c) 32 = c ∧
      runeLen8 c = 1 := by decide

theorem gsmBasic_lt (c : Nat) (h : gsmBasic c = true) : c < 128 := by
  unfold gsmBasic at h
  simp only [Bool.and_eq_true, decide_eq_true_eq] at h
  exact h.1.1

theorem concatMap_cons (f : α → List β) (x : α) (xs : List α) :
    concatMap f (x :: xs) = f x ++ concatMap f xs := rfl

theorem decodeSeptets_cons (s : Nat) (rest : List Nat) (h : s ≠ 27) :
    decodeSeptets (s :: rest) = gsmTable.getD s 32 :: decodeSeptets rest := by
  cases rest with
  | nil =>
    have e1 : decodeSeptets [s] =
        if s = 27 then [] else gsmTable.getD s 32 :: decodeSeptets [] := rfl
    rw [e1, if_neg h]
  | cons e rest2 =>
    have e1 : decodeSeptets (s :: e :: rest2) =
        if s = 27 then extTable e :: decodeSeptets rest2
        else gsmTable.getD s 32 :: decodeSeptets (e :: rest2) := rfl
    rw [e1, if_neg h]

theorem decodeSeptets_append (s t : List Nat) (h : ∀ x ∈ s, x ≠ 27) :
    decodeSeptets (s ++ t) =
      s.map (fun x => gsmTable.getD x 32) ++ decodeSeptets t := by
  induction s with
  | nil => rfl
  | cons x xs ih =>
    have hx : x ≠ 27 := h x (by simp)
    rw [List.cons_append, decodeSeptets_cons x (xs ++ t) hx,
      ih (fun y hy => h y (by simp [hy]))]
    simp

/-- Septet translation of a basic text: one septet per character. -/
theorem concatMap_encodeChar (t : GoStr) (h : basicText t) :
    concatMap encodeChar t = t.map (fun c => gsmTable.indexOf c) := by
  induction t with
  | nil => rfl
  | cons c cs ih =>
    have hc := h c (by simp)
    have hf := gsmBasic_facts c (gsmBasic_lt c hc) hc
    simp only [concatMap, hf.1, List.map_cons, List.cons_append,
      List.nil_append]
    rw [ih (fun y hy => h y (by simp [hy]))]

theorem goLen_basic (t : GoStr) (h : basicText t) : goLen t = t.length := by
  induction t with
  | nil => rfl
  | cons c cs ih =>
    have hc := h c (by simp)
    have hf := gsmBasic_facts c (gsmBasic_lt c hc) hc
    simp only [goLen, List.map_cons, List.sum_cons, List.length_cons] at ih ⊢
    rw [hf.2.2.2.2, ih (fun y hy => h y (by simp [hy]))]
    omega

/-- Encoding then decoding a basic text of at most 255 characters, truncated
with the user-data-length octet the encoder wrote, restores the text. -/
theorem sevenBit_roundtrip (t : GoStr) (h : basicText t)
    (hlen : t.length ≤ 255) :
    cutStr (Decode7Bit (Encode7Bit t)) (goLen t % 256) = some t := by
  have hsep := concatMap_encodeChar t h
  have hall : ∀ x ∈ t.map (fun c => gsmTable.indexOf c), x < 128 := by
    intro x hx
    rw [List.mem_map] at hx
    obtain ⟨c, hc, rfl⟩ := hx
    exact (gsmBasic_facts c (gsmBasic_lt c (h c hc)) (h c hc)).2.1
  have hno27 : ∀ x ∈ t.map (fun c => gsmTable.indexOf c), x ≠ 27 := by
    intro x hx
    rw [List.mem_map] at hx
    obtain ⟨c, hc, rfl⟩ := hx
    exact (gsmBasic_facts c (gsmBasic_lt c (h c hc)) (h c hc)).2.2.1
  have hback : (t.map (fun c => gsmTable.indexOf c)).map
      (fun x => gsmTable.getD x 32) = t := by
    rw [List.map_map]
    conv_rhs => rw [← List.map_id t]
    refine List.map_congr_left ?_
    intro c hc
    exact (gsmBasic_facts c (gsmBasic_lt c (h c hc)) (h c hc)).2.2.2.1
  unfold Decode7Bit Encode7Bit
  rw [hsep, unpack7_pack7 _ hall, List.length_map]
  rw [goLen_basic t h, Nat.mod_eq_of_lt (show t.length < 256 by omega)]
  by_cases h7 : t.length % 8 = 7
  · rw [if_pos h7, decodeSeptets_append _ _ hno27, hback]
    have hdec : decodeSeptets [0] = [64] := rfl
    rw [hdec]
    have hg : goLen (t ++ [64]) = t.length + 1 := by
      unfold goLen
      rw [List.map_append, List.sum_append]
      have h1 : (List.map runeLen8 t).sum = t.length := goLen_basic t h
      rw [h1]
      rfl
    unfold cutStr
    rw [hg, if_pos (by omega),
      if_pos (by simp only [List.length_append, List.length_cons,
        List.length_nil]; omega)]
    rw [List.take_left]
  · rw [if_neg h7, decodeSeptets_append _ _ hno27, hback]
    have hnil : decodeSeptets [] = [] := rfl
    rw [hnil, List.append_nil]
    unfold cutStr
    rw [goLen_basic t h, if_neg (by omega)]

/-! ## Lemmas: UCS-2 text -/

theorem ucs2Units_cons2 (a b : Nat) (rest : List Nat) :
    ucs2Units (a :: b :: rest) =
      (ucs2Units rest).map (fun t => (a * 256 + b) :: t) := rfl

theorem ucs2Units_encode (t : GoStr) (h : ∀ c ∈ t, c < 0x10000) :
    ucs2Units (EncodeUcs2 t) = some t := by
  induction t with
  | nil => rfl
  | cons c cs ih =>
    have hc := h c (by simp)
    have he : EncodeUcs2 (c :: cs) =
        c / 256 % 256 :: c % 256 :: EncodeUcs2 cs := by
      unfold EncodeUcs2
      simp only [concatMap_cons]
      rw [if_pos hc]
      simp only [List.cons_append, List.nil_append]
    rw [he, ucs2Units_cons2, ih (fun y hy => h y (by simp [hy]))]
    show some ((c / 256 % 256 * 256 + c % 256) :: cs) = some (c :: cs)
    have hcv : c / 256 % 256 * 256 + c % 256 = c := by omega
    rw [hcv]

theorem joinSurrogates_cons2 (u v : Nat) (rest : List Nat)
    (h : ¬(0xD800 ≤ u ∧ u < 0xDC00 ∧ 0xDC00 ≤ v ∧ v < 0xE000)) :
    joinSurrogates (u :: v :: rest) = u :: joinSurrogates (v :: rest) := by
  have e1 : joinSurrogates (u :: v :: rest) =
      if 0xD800 ≤ u ∧ u < 0xDC00 ∧ 0xDC00 ≤ v ∧ v < 0xE000 then
        (0x10000 + (u - 0xD800) * 0x400 + (v - 0xDC00)) :: joinSurrogates rest
      else u :: joinSurrogates (v :: rest) := rfl
  rw [e1, if_neg h]

theorem joinSurrogates_id (t : GoStr) (h : ∀ c ∈ t, bmpChar c) :
    joinSurrogates t = t := by
  induction t with
  | nil => rfl
  | cons u rest ih =>
    cases rest with
    | nil => rfl
    | cons v rest2 =>
      have hu := h u (by simp)
      have hcond : ¬(0xD800 ≤ u ∧ u < 0xDC00 ∧ 0xDC00 ≤ v ∧ v < 0xE000) := by
        unfold bmpChar at hu
        omega
      rw [joinSurrogates_cons2 u v rest2 hcond,
        ih (fun y hy => h y (by simp [hy]))]

theorem ucs2_roundtrip (t : GoStr) (h : bmpText t) :
    DecodeUcs2 (EncodeUcs2 t) false = .ok t := by
  unfold DecodeUcs2
  rw [if_neg (by simp)]
  show (match ucs2Units (EncodeUcs2 t) with
    | none => Except.error GoErr.incorrectSize
    | some us => Except.ok (joinSurrogates us)) = Except.ok t
  rw [ucs2Units_encode t
    (fun c hc => by have hb := h c hc; unfold bmpChar at hb; omega)]
  show Except.ok (joinSurrogates t) = Except.ok t
  rw [joinSurrogates_id t h]

/-! ## Lemmas: semi-octet digits and phone numbers -/

theorem digit_inverse (c : Nat) (h : isPhoneDigit c = true) :
    digitVal c < 15 ∧ digitChar (digitVal c) = c := by
  unfold isPhoneDigit at h
  simp only [Bool.or_eq_true, Bool.and_eq_true, decide_eq_true_eq] at h
  rcases h with ((((⟨h1, h2⟩ | h3) | h4) | h5) | h6) | h7
  · have hv : digitVal c = c - 48 := by
      unfold digitVal
      rw [if_pos ⟨h1, h2⟩]
    constructor
    · rw [hv]
      omega
    · rw [hv]
      unfold digitChar
      rw [if_pos (by omega)]
      omega
  · subst h3
    decide
  · subst h4
    decide
  · subst h5
    decide
  · subst h6
    decide
  · subst h7
    decide

theorem encodeSemi_length (ds : List Nat) :
    (encodeSemi ds).length = blocks ds.length 2 := by
  induction ds using encodeSemi.induct with
  | case1 => rfl
  | case2 d => simp [encodeSemi, blocks]
  | case3 d1 d2 rest ih =>
    simp only [encodeSemi, List.length_cons, blocks] at ih ⊢
    rcases Nat.even_or_odd rest.length with he | ho
    · obtain ⟨k, hk⟩ := he
      rw [hk] at ih ⊢
      have h1 : (k + k) % 2 = 0 := by omega
      have h2 : (k + k + 1 + 1) % 2 = 0 := by omega
      rw [if_pos h1] at ih
      rw [if_pos h2, ih]
      omega
    · obtain ⟨k, hk⟩ := ho
      rw [hk] at ih ⊢
      have h1 : (2 * k + 1) % 2 ≠ 0 := by omega
      have h2 : (2 * k + 1 + 1 + 1) % 2 ≠ 0 := by omega
      rw [if_neg h1] at ih
      rw [if_neg h2, ih]
      omega

/-- Decoding the nibbles of an encoded digit list, stripping fillers,
restores the digit values. -/
theorem semiNibbles_encodeSemi (ds : List Nat) (h : ∀ d ∈ ds, d < 15) :
    (semiNibbles (encodeSemi ds)).filter (fun d => d ≠ 15) = ds := by
  induction ds using encodeSemi.induct with
  | case1 => rfl
  | case2 d =>
    have hd := h d (by simp)
    have e1 : encodeSemi [d] = [0xF * 16 + d % 16] := rfl
    have e2 : semiNibbles [0xF * 16 + d % 16] =
        [(0xF * 16 + d % 16) % 16, (0xF * 16 + d % 16) / 16 % 16] := rfl
    rw [e1, e2]
    have h1 : (0xF * 16 + d % 16) % 16 = d := by omega
    have h2 : (0xF * 16 + d % 16) / 16 % 16 = 15 := by omega
    rw [h1, h2, List.filter_cons, List.filter_cons, List.filter_nil]
    rw [if_pos (show decide (d ≠ 15) = true by
        simp only [decide_eq_true_eq]; omega)]
    rw [if_neg (by decide)]
  | case3 d1 d2 rest ih =>
    have hd1 := h d1 (by simp)
    have hd2 := h d2 (by simp)
    have e1 : encodeSemi (d1 :: d2 :: rest) =
        (d2 % 16 * 16 + d1 % 16) :: encodeSemi rest := rfl
    have e2 : semiNibbles ((d2 % 16 * 16 + d1 % 16) :: encodeSemi rest) =
        (d2 % 16 * 16 + d1 % 16) % 16 :: (d2 % 16 * 16 + d1 % 16) / 16 % 16 ::
          semiNibbles (encodeSemi rest) := rfl
    rw [e1, e2]
    have h1 : (d2 % 16 * 16 + d1 % 16) % 16 = d1 := by omega
    have h2 : (d2 % 16 * 16 + d1 % 16) / 16 % 16 = d2 := by omega
    rw [h1, h2, List.filter_cons, List.filter_cons]
    rw [if_pos (show decide (d1 ≠ 15) = true by
        simp only [decide_eq_true_eq]; omega)]
    rw [if_pos (show decide (d2 ≠ 15) = true by
        simp only [decide_eq_true_eq]; omega)]
    rw [ih (fun y hy => h y (by simp [hy]))]

theorem pnPDU_fst (p : PhoneNumber) : p.PDU.1 = (pnDigits p).length := by
  unfold PhoneNumber.PDU pnDigits
  by_cases h : p.head? = some 43 <;> simp [h]

theorem pnPDU_snd_length (p : PhoneNumber) :
    p.PDU.2.length = 1 + blocks (pnDigits p).length 2 := by
  unfold PhoneNumber.PDU pnDigits
  by_cases h : p.head? = some 43 <;>
    simp [h, encodeSemi_length, List.length_map, Nat.add_comm]

theorem pn_roundtrip (p : PhoneNumber) (h : pnValid p) :
    PhoneNumber.ReadFrom p.PDU.2 = p := by
  unfold PhoneNumber.PDU
  by_cases hh : p.head? = some 43
  · rw [if_pos hh]
    unfold PhoneNumber.ReadFrom
    have hpd : pnDigits p = p.tail := by
      unfold pnDigits
      rw [if_pos hh]
    have hds : ((semiNibbles (encodeSemi (p.tail.map digitVal))).filter
        (fun d => d ≠ 15)).map digitChar = p.tail := by
      rw [semiNibbles_encodeSemi (p.tail.map digitVal) (by
        intro d hd
        rw [List.mem_map] at hd
        obtain ⟨c, hc, rfl⟩ := hd
        exact (digit_inverse c (h c (by rw [hpd]; exact hc))).1)]
      rw [List.map_map]
      conv_rhs => rw [← List.map_id p.tail]
      refine List.map_congr_left ?_
      intro c hc
      exact (digit_inverse c (h c (by rw [hpd]; exact hc))).2
    simp only [hds]
    rw [if_pos (by norm_num)]
    cases p with
    | nil => cases hh
    | cons a t =>
      simp only [List.head?_cons, Option.some_inj] at hh
      subst hh
      rfl
  · rw [if_neg hh]
    unfold PhoneNumber.ReadFrom
    have hpd : pnDigits p = p := by unfold pnDigits; rw [if_neg hh]
    have hds : ((semiNibbles (encodeSemi (p.map digitVal))).filter
        (fun d => d ≠ 15)).map digitChar = p := by
      rw [semiNibbles_encodeSemi (p.map digitVal) (by
        intro d hd
        rw [List.mem_map] at hd
        obtain ⟨c, hc, rfl⟩ := hd
        exact (digit_inverse c (h c (by rw [hpd]; exact hc))).1)]
      rw [List.map_map]
      conv_rhs => rw [← List.map_id p]
      refine List.map_congr_left ?_
      intro c hc
      exact (digit_inverse c (h c (by rw [hpd]; exact hc))).2
    simp only [hds]
    rw [if_neg (by norm_num)]

/-- Reading an empty octet sequence yields the empty phone number. -/
theorem pnRead_nil : PhoneNumber.ReadFrom [] = [] := rfl

/-! ## Lemmas: timestamps and validity periods -/

theorem unswapBCD_swapBCD (v : Nat) (h : v < 100) :
    unswapBCD (swapBCD v) = v := by
  unfold swapBCD unswapBCD
  have e0 : v / 10 % 10 = v / 10 := Nat.mod_eq_of_lt (by omega)
  rw [e0]
  have e1 : (v % 10 * 16 + v / 10) % 16 = v / 10 := by omega
  have e2 : (v % 10 * 16 + v / 10) / 16 % 16 = v % 10 := by omega
  rw [e1, e2]
  omega

theorem tzRead_tzOctet (q : Int) (h : q.natAbs < 80) :
    tzRead (tzOctet q) = q := by
  unfold tzOctet tzRead
  have e0 : q.natAbs / 10 % 10 = q.natAbs / 10 := Nat.mod_eq_of_lt (by omega)
  rw [e0]
  set m := q.natAbs with hm
  have hd : m / 10 < 8 := by omega
  by_cases hq : q < 0
  · rw [if_pos hq]
    have eo : (m % 10 * 16 + (m / 10 + 8)) % 16 = m / 10 + 8 := by omega
    have eo2 : (m % 10 * 16 + (m / 10 + 8)) / 16 = m % 10 := by omega
    have e1 : (m % 10 * 16 + (m / 10 + 8)) % 16 / 8 % 2 = 1 := by
      rw [eo]
      omega
    rw [if_pos e1]
    have e2 : (m % 10 * 16 + (m / 10 + 8)) % 16 % 8 = m / 10 := by
      rw [eo]
      omega
    have e3 : (m % 10 * 16 + (m / 10 + 8)) / 16 % 16 = m % 10 := by
      rw [eo2]
      omega
    rw [e2, e3]
    omega
  · rw [if_neg hq]
    have eo : (m % 10 * 16 + (m / 10 + 0)) % 16 = m / 10 := by omega
    have eo2 : (m % 10 * 16 + (m / 10 + 0)) / 16 = m % 10 := by omega
    have e1 : ¬((m % 10 * 16 + (m / 10 + 0)) % 16 / 8 % 2 = 1) := by
      rw [eo]
      omega
    rw [if_neg e1]
    have e2 : (m % 10 * 16 + (m / 10 + 0)) % 16 % 8 = m / 10 := by
      rw [eo]
      omega
    have e3 : (m % 10 * 16 + (m / 10 + 0)) / 16 % 16 = m % 10 := by
      rw [eo2]
      omega
    rw [e2, e3]
    omega

theorem ts_roundtrip (t : Timestamp) (h : tsOK t) :
    Timestamp.ReadFrom t.PDU = t := by
  obtain ⟨year, month, day, hour, minute, second, tz⟩ := t
  obtain ⟨h1, h2, h3, h4, h5, h6, h7⟩ := h
  simp only at h1 h2 h3 h4 h5 h6 h7
  unfold Timestamp.PDU Timestamp.ReadFrom
  simp only [List.getD_cons_zero, List.getD_cons_succ]
  have hy : year % 100 = year := Nat.mod_eq_of_lt h1
  rw [hy]
  congr 1
  · exact unswapBCD_swapBCD _ h1
  · exact unswapBCD_swapBCD _ h2
  · exact unswapBCD_swapBCD _ h3
  · exact unswapBCD_swapBCD _ h4
  · exact unswapBCD_swapBCD _ h5
  · exact unswapBCD_swapBCD _ h6
  · exact tzRead_tzOctet _ h7

theorem vpOctet_lt (m : Nat) : vpOctet m < 256 := by
  unfold vpOctet
  by_cases h1 : m ≤ 720
  · rw [if_pos h1]
    by_cases h2 : m ≤ 5
    · rw [if_pos h2]
      omega
    · rw [if_neg h2]
      omega
  · rw [if_neg h1]
    by_cases h3 : m ≤ 1440
    · rw [if_pos h3]
      omega
    · rw [if_neg h3]
      by_cases h4 : m ≤ 43200
      · rw [if_pos h4]
        omega
      · rw [if_neg h4]
        have hmin : min (m / 10080) 63 ≤ 63 := Nat.min_le_right _ _
        omega

set_option maxRecDepth 4000 in
theorem vpRead_vpOctet_grid : ∀ v < 256, vpOctet (vpRead v) = v := by decide

/-! ## Lemmas: list indexing helpers for the frame parsers -/

theorem getD0_cons (a : Nat) (l : List Nat) : (a :: l).getD 0 0 = a := rfl

theorem getD1_cons (a b : Nat) (l : List Nat) :
    (a :: b :: l).getD 1 0 = b := rfl

theorem getD2_cons (a b c : Nat) (l : List Nat) :
    (a :: b :: c :: l).getD 2 0 = c := rfl

theorem getD3_cons (a b c e : Nat) (l : List Nat) :
    (a :: b :: c :: e :: l).getD 3 0 = e := rfl

theorem getD9_cons2 (a b : Nat) (l : List Nat) :
    (a :: b :: l).getD 9 0 = l.getD 7 0 := rfl

theorem drop1_cons (a : Nat) (l : List Nat) : (a :: l).drop 1 = l := rfl

theorem drop2_cons (a b : Nat) (l : List Nat) : (a :: b :: l).drop 2 = l := rfl

theorem drop3_cons (a b c : Nat) (l : List Nat) :
    (a :: b :: c :: l).drop 3 = l := rfl

theorem drop4_cons (a b c e : Nat) (l : List Nat) :
    (a :: b :: c :: e :: l).drop 4 = l := rfl

theorem drop10_cons2 (a b : Nat) (l : List Nat) :
    (a :: b :: l).drop 10 = l.drop 8 := rfl

theorem drop17_cons2 (a b : Nat) (l : List Nat) :
    (a :: b :: l).drop 17 = l.drop 15 := rfl

theorem getD16_cons2 (a b : Nat) (l : List Nat) :
    (a :: b :: l).getD 16 0 = l.getD 14 0 := rfl

theorem getD14_cons2 (a b : Nat) (l : List Nat) :
    (a :: b :: l).getD 14 0 = l.getD 12 0 := rfl

theorem drop_append_len (a b : List Nat) (n : Nat) (h : a.length = n) :
    (a ++ b).drop n = b := by
  subst h
  exact List.drop_left a b

theorem take_append_len (a b : List Nat) (n : Nat) (h : a.length = n) :
    (a ++ b).take n = a := by
  subst h
  exact List.take_left a b

theorem getD_append_len (a b : List Nat) (n : Nat) (h : a.length = n) :
    (a ++ b).getD n 0 = b.getD 0 0 := by
  subst h
  rw [List.getD_append_right a b 0 a.length (le_refl _), Nat.sub_self]

/-! ## Lemmas: flag-octet bit recovery -/

theorem deliver_flag_recover (mti : Nat) (mms lp rp udhi sri : Bool)
    (h : mti < 4) :
    (mti % 4 + bitIf (!mms) 4 + bitIf lp 8 + bitIf sri 32 + bitIf udhi 64 +
        bitIf rp 128) % 4 = mti ∧
    decide ((mti % 4 + bitIf (!mms) 4 + bitIf lp 8 + bitIf sri 32 +
        bitIf udhi 64 + bitIf rp 128) / 4 % 2 = 0) = mms ∧
    decide ((mti % 4 + bitIf (!mms) 4 + bitIf lp 8 + bitIf sri 32 +
        bitIf udhi 64 + bitIf rp 128) / 8 % 2 = 1) = lp ∧
    decide ((mti % 4 + bitIf (!mms) 4 + bitIf lp 8 + bitIf sri 32 +
        bitIf udhi 64 + bitIf rp 128) / 32 % 2 = 1) = sri ∧
    decide ((mti % 4 + bitIf (!mms) 4 + bitIf lp 8 + bitIf sri 32 +
        bitIf udhi 64 + bitIf rp 128) / 64 % 2 = 1) = udhi ∧
    decide ((mti % 4 + bitIf (!mms) 4 + bitIf lp 8 + bitIf sri 32 +
        bitIf udhi 64 + bitIf rp 128) / 128 % 2 = 1) = rp := by
  unfold bitIf
  cases mms <;> cases lp <;> cases rp <;> cases udhi <;> cases sri <;>
    simp only [Bool.not_true, Bool.not_false, if_true, if_false,
      Bool.false_eq_true, Bool.true_eq_false] <;>
    refine ⟨by omega, ?_, ?_, ?_, ?_, ?_⟩ <;>
    first
      | exact decide_eq_true (by omega)
      | exact decide_eq_false (by omega)

theorem submit_flag_recover (mti : Nat) (rd rp udhi srr : Bool) (vpf : Nat)
    (h : mti < 4) (hv : vpf < 4) :
    (mti % 4 + bitIf rd 4 + vpf % 4 * 8 + bitIf srr 32 + bitIf udhi 64 +
        bitIf rp 128) % 4 = mti ∧
    decide ((mti % 4 + bitIf rd 4 + vpf % 4 * 8 + bitIf srr 32 +
        bitIf udhi 64 + bitIf rp 128) / 4 % 2 = 1) = rd ∧
    (mti % 4 + bitIf rd 4 + vpf % 4 * 8 + bitIf srr 32 + bitIf udhi 64 +
        bitIf rp 128) / 8 % 4 = vpf ∧
    decide ((mti % 4 + bitIf rd 4 + vpf % 4 * 8 + bitIf srr 32 +
        bitIf udhi 64 + bitIf rp 128) / 32 % 2 = 1) = srr ∧
    decide ((mti % 4 + bitIf rd 4 + vpf % 4 * 8 + bitIf srr 32 +
        bitIf udhi 64 + bitIf rp 128) / 64 % 2 = 1) = udhi ∧
    decide ((mti % 4 + bitIf rd 4 + vpf % 4 * 8 + bitIf srr 32 +
        bitIf udhi 64 + bitIf rp 128) / 128 % 2 = 1) = rp := by
  unfold bitIf
  have hvm : vpf % 4 = vpf := Nat.mod_eq_of_lt hv
  cases rd <;> cases rp <;> cases udhi <;> cases srr <;>
    simp only [Bool.not_true, Bool.not_false, if_true, if_false,
      Bool.false_eq_true, Bool.true_eq_false] <;>
    refine ⟨by omega, ?_, by omega, ?_, ?_, ?_⟩ <;>
    first
      | exact decide_eq_true (by omega)
      | exact decide_eq_false (by omega)

theorem status_flag_recover (mti : Nat) (mms lp udhi srq : Bool)
    (h : mti < 4) :
    (mti % 4 + bitIf (!mms) 4 + bitIf lp 8 + bitIf srq 32 +
        bitIf udhi 64) % 4 = mti ∧
    decide ((mti % 4 + bitIf (!mms) 4 + bitIf lp 8 + bitIf srq 32 +
        bitIf udhi 64) / 4 % 2 = 0) = mms ∧
    decide ((mti % 4 + bitIf (!mms) 4 + bitIf lp 8 + bitIf srq 32 +
        bitIf udhi 64) / 8 % 2 = 1) = lp ∧
    decide ((mti % 4 + bitIf (!mms) 4 + bitIf lp 8 + bitIf srq 32 +
        bitIf udhi 64) / 32 % 2 = 1) = srq ∧
    decide ((mti % 4 + bitIf (!mms) 4 + bitIf lp 8 + bitIf srq 32 +
        bitIf udhi 64) / 64 % 2 = 1) = udhi ∧
    decide ((mti % 4 + bitIf (!mms) 4 + bitIf lp 8 + bitIf srq 32 +
        bitIf udhi 64) / 128 % 2 = 1) = false := by
  unfold bitIf
  cases mms <;> cases lp <;> cases udhi <;> cases srq <;>
    simp only [Bool.not_true, Bool.not_false, if_true, if_false,
      Bool.false_eq_true, Bool.true_eq_false] <;>
    refine ⟨by omega, ?_, ?_, ?_, ?_, ?_⟩ <;>
    first
      | exact decide_eq_true (by omega)
      | exact decide_eq_false (by omega)

/-! ## Lemmas: frame round trips -/

/-- Parsing the serialized Deliver frame restores the frame, for any frame
with the shape the encoder produces. -/
theorem deliver_FromBytes_Bytes (f : SmsDeliver) (d : Nat)
    (body : List Nat) (hmti : f.MessageTypeIndicator < 4)
    (hoa : f.OriginatingAddress = d :: body)
    (hbody : body.length = blocks d 2 + 1)
    (hts : f.ServiceCentreTimestamp.length = 7) :
    SmsDeliver.FromBytes f.Bytes = (f.Bytes.length, .ok f) := by
  obtain ⟨mti, mms, lp, rp, udhi, sri, oa, pid, dcs, scts, udl, ud⟩ := f
  simp only at hmti hoa hbody hts
  subst hoa
  obtain ⟨hb1, hb2, hb3, hb4, hb5, hb6⟩ :=
    deliver_flag_recover mti mms lp rp udhi sri hmti
  unfold SmsDeliver.Bytes SmsDeliver.FromBytes SmsDeliver.flagOctet
  simp only [List.cons_append, List.append_assoc, getD0_cons, getD1_cons,
    drop2_cons]
  rw [if_neg (by simp only [List.length_cons]; omega)]
  rw [if_neg (by simp only [List.length_append, List.length_cons]; omega)]
  rw [if_neg (by
    simp only [List.length_drop, List.length_append, List.length_cons]
    omega)]
  simp only [← hbody, List.drop_left, List.take_left]
  simp only [getD0_cons, getD1_cons, drop2_cons, getD9_cons2, drop10_cons2]
  rw [take_append_len scts _ 7 hts,
    getD_append_len scts _ 7 hts, getD0_cons]
  rw [show (8 : Nat) = 7 + 1 from rfl, ← List.drop_drop,
    drop_append_len scts _ 7 hts, drop1_cons]
  simp only [Prod.mk.injEq, Except.ok.injEq, SmsDeliver.mk.injEq,
    hb1, hb2, hb3, hb4, hb5, hb6]

/-- Parsing the serialized Submit frame restores the frame, for any frame
with the shape the encoder produces. -/
theorem submit_FromBytes_Bytes (f : SmsSubmit) (d : Nat)
    (body : List Nat) (hmti : f.MessageTypeIndicator < 4)
    (hvpf : f.ValidityPeriodFormat < 4)
    (hmr : f.MessageReference < 256)
    (hvp : f.ValidityPeriodFormat = 0 → f.ValidityPeriod = 0)
    (hvplt : f.ValidityPeriod < 256)
    (hda : f.DestinationAddress = d :: body)
    (hbody : body.length = blocks d 2 + 1) :
    SmsSubmit.FromBytes f.Bytes = (f.Bytes.length, .ok f) := by
  obtain ⟨mti, rd, vpf, rp, udhi, srr, mr, da, pid, dcs, vp, udl, ud⟩ := f
  simp only at hmti hvpf hmr hvp hvplt hda hbody
  subst hda
  obtain ⟨hb1, hb2, hb3, hb4, hb5, hb6⟩ :=
    submit_flag_recover mti rd rp udhi srr vpf hmti hvpf
  unfold SmsSubmit.Bytes SmsSubmit.FromBytes SmsSubmit.flagOctet
  have hmrm : mr % 256 = mr := Nat.mod_eq_of_lt hmr
  have hvpm : vp % 256 = vp := Nat.mod_eq_of_lt hvplt
  have hvfm : vpf % 4 = vpf := Nat.mod_eq_of_lt hvpf
  simp only [hvfm] at hb1 hb2 hb3 hb4 hb5 hb6
  simp only [List.cons_append, List.append_assoc, getD0_cons, getD1_cons,
    getD2_cons, drop3_cons, hvfm, hb3, hmrm, hvpm]
  by_cases hv : vpf = 0
  · subst hv
    simp only [ne_eq, eq_self_iff_true, not_true, if_false, List.nil_append]
    rw [if_neg (by simp only [List.length_cons]; omega)]
    rw [if_neg (by simp only [List.length_append, List.length_cons]; omega)]
    rw [if_neg (by
      simp only [List.length_drop, List.length_append, List.length_cons]
      omega)]
    simp only [← hbody, List.drop_left, List.take_left]
    simp only [getD0_cons, getD1_cons, getD2_cons, drop3_cons]
    simp only [Prod.mk.injEq, Except.ok.injEq, SmsSubmit.mk.injEq,
      hb1, hb2, hb4, hb5, hb6, hvp rfl]
  · simp only [ne_eq, hv, not_false_eq_true, if_true, List.cons_append,
      List.nil_append]
    rw [if_neg (by simp only [List.length_cons]; omega)]
    rw [if_neg (by simp only [List.length_append, List.length_cons]; omega)]
    rw [if_neg (by
      simp only [List.length_drop, List.length_append, List.length_cons]
      omega)]
    simp only [← hbody, List.drop_left, List.take_left]
    simp only [getD0_cons, getD1_cons, getD2_cons, getD3_cons, drop4_cons]
    simp only [Prod.mk.injEq, Except.ok.injEq, SmsSubmit.mk.injEq,
      hb1, hb2, hb4, hb5, hb6]

/-- Parsing the serialized StatusReport frame restores the frame, for any
frame with the shape the encoder produces. -/
theorem status_FromBytes_Bytes (f : SmsStatusReport) (d : Nat)
    (body : List Nat) (hmti : f.MessageTypeIndicator < 4)
    (hmr : f.MessageReference < 256) (hst : f.Status < 256)
    (hdcs : f.DataCodingScheme = 0)
    (hda : f.DestinationAddress = d :: body)
    (hbody : body.length = blocks d 2 + 1)
    (hts : f.ServiceCentreTimestamp.length = 7)
    (hdts : f.DischargeTimestamp.length = 7) :
    SmsStatusReport.FromBytes f.Bytes = (f.Bytes.length, .ok f) := by
  obtain ⟨mti, mms, lp, udhi, srq, mr, da, scts, dts, st, dcsf, udl, ud⟩ := f
  simp only at hmti hmr hst hdcs hda hbody hts hdts
  subst hda
  subst hdcs
  obtain ⟨hb1, hb2, hb3, hb4, hb5, hb6⟩ :=
    status_flag_recover mti mms lp udhi srq hmti
  unfold SmsStatusReport.Bytes SmsStatusReport.FromBytes SmsStatusReport.flagOctet
  have hmrm : mr % 256 = mr := Nat.mod_eq_of_lt hmr
  have hstm : st % 256 = st := Nat.mod_eq_of_lt hst
  simp only [List.cons_append, List.append_assoc, getD0_cons, getD1_cons,
    getD2_cons, drop3_cons, hmrm, hstm]
  rw [if_neg (by simp only [List.length_cons]; omega)]
  rw [if_neg (by simp only [List.length_append, List.length_cons]; omega)]
  rw [if_neg (by
    simp only [List.length_drop, List.length_append, List.length_cons]
    omega)]
  simp only [← hbody, List.drop_left, List.take_left]
  have e1 : (scts ++ (dts ++ (st :: 0 :: udl :: ud))).getD 14 0 = st := by
    rw [List.getD_append_right _ _ _ _ (by omega),
      List.getD_append_right _ _ _ _ (by omega)]
    have hidx : 14 - scts.length - dts.length = 0 := by omega
    rw [hidx]
    rfl
  have e2 : (scts ++ (dts ++ (st :: 0 :: udl :: ud))).getD 16 0 = udl := by
    rw [List.getD_append_right _ _ _ _ (by omega),
      List.getD_append_right _ _ _ _ (by omega)]
    have hidx : 16 - scts.length - dts.length = 2 := by omega
    rw [hidx]
    rfl
  have e3 : (scts ++ (dts ++ (st :: 0 :: udl :: ud))).drop 17 = ud := by
    rw [show (17 : Nat) = 7 + 10 from rfl, ← List.drop_drop,
      drop_append_len scts _ 7 hts,
      show (10 : Nat) = 7 + 3 from rfl, ← List.drop_drop,
      drop_append_len dts _ 7 hdts]
    rfl
  rw [take_append_len scts _ 7 hts, drop_append_len scts _ 7 hts,
    take_append_len dts _ 7 hdts, e1, e2, e3]
  simp only [Prod.mk.injEq, Except.ok.injEq, SmsStatusReport.mk.injEq,
    hb1, hb2, hb3, hb4, hb5, hb6]


/-! ## Lemmas: message-level round trip -/

theorem userDataFor_7bit (enc : Nat) (t : GoStr)
    (henc : enc = 0 ∨ enc = 0xF0) :
    userDataFor enc t = .ok (Encode7Bit t, goLen t % 256) := by
  unfold userDataFor
  rw [if_pos henc]

theorem userDataFor_ucs2 (t : GoStr) :
    userDataFor 8 t = .ok (EncodeUcs2 t, (EncodeUcs2 t).length % 256) := by
  unfold userDataFor
  rw [if_neg (by decide), if_pos rfl]

theorem readText_7bit (m : Message) (n : Nat) (text : GoStr)
    (henc : m.Encoding = 0 ∨ m.Encoding = 0xF0) (hb : basicText text)
    (hl : text.length ≤ 255) :
    readText m (goLen text % 256) (Encode7Bit text) n =
      some ⟨n, { m with Text := text }, none⟩ := by
  unfold readText
  rw [if_pos henc, sevenBit_roundtrip text hb hl]

theorem readText_ucs2 (m : Message) (n : Nat) (text : GoStr)
    (henc : m.Encoding = 8) (hh : m.UserDataStartsWithHeader = false)
    (hb : bmpText text) :
    readText m ((EncodeUcs2 text).length % 256) (EncodeUcs2 text) n =
      some ⟨n, { m with Text := text }, none⟩ := by
  unfold readText
  rw [if_neg (by rw [henc]; decide), if_pos henc, hh,
    ucs2_roundtrip text hb]

theorem addrField_eq (p : PhoneNumber) (_hv : pnValid p)
    (hlen : (pnDigits p).length ≤ 255) :
    addrField p = (pnDigits p).length :: p.PDU.2 := by
  unfold addrField
  rw [pnPDU_fst, Nat.mod_eq_of_lt (by omega)]

theorem pnPDU_snd_length' (p : PhoneNumber) :
    p.PDU.2.length = blocks (pnDigits p).length 2 + 1 := by
  rw [pnPDU_snd_length]
  omega

/-- The decoder inverts the SMSC prefix written by the encoder and
dispatches on the MTI bits of the next octet. -/
theorem ReadFrom_smsc (m : Message) (hv : pnValid m.ServiceCenterAddress)
    (hlen : (pnDigits m.ServiceCenterAddress).length ≤ 30)
    (flag : Nat) (rest : List Nat) :
    Message.ReadFrom (smscField m ++ (flag :: rest)) =
      (let m1 : Message :=
        { ServiceCenterAddress := m.ServiceCenterAddress
          MsgType := flag % 4 }
       let base := (smscField m).length
       if flag % 4 = 0 then readDeliver m1 (flag :: rest) base
       else if flag % 4 = 1 then readSubmit m1 (flag :: rest) base
       else if flag % 4 = 2 then readStatus m1 (flag :: rest) base
       else some ⟨base, m1, some .unknownMessageType⟩) := by
  unfold smscField
  by_cases hsca : m.ServiceCenterAddress.length < 1
  · have hnil : m.ServiceCenterAddress = [] :=
      List.length_eq_zero.mp (by omega)
    rw [if_pos hsca]
    unfold Message.ReadFrom
    simp only [List.cons_append, List.nil_append, List.singleton_append]
    rw [if_neg (by omega)]
    rw [if_neg (by simp only [List.length_cons]; omega)]
    simp only [List.take_zero, List.drop_zero, List.length_cons,
      List.length_nil, hnil]
    rfl
  · rw [if_neg hsca]
    have hoct := pnPDU_snd_length' m.ServiceCenterAddress
    have hle : m.ServiceCenterAddress.PDU.2.length ≤ 16 := by
      rw [hoct]
      have hbl : blocks (pnDigits m.ServiceCenterAddress).length 2 ≤ 15 := by
        unfold blocks
        split <;> omega
      omega
    have hmod : m.ServiceCenterAddress.PDU.2.length % 256 =
        m.ServiceCenterAddress.PDU.2.length := Nat.mod_eq_of_lt (by omega)
    rw [hmod]
    unfold Message.ReadFrom
    simp only [List.cons_append]
    rw [if_neg (by omega)]
    rw [if_neg (by simp only [List.length_append, List.length_cons]; omega)]
    rw [take_append_len _ _ _ rfl, drop_append_len _ _ _ rfl,
      pn_roundtrip _ hv]
    simp only [List.length_cons]
    rw [Nat.add_comm 1 m.ServiceCenterAddress.PDU.2.length]

theorem deliver_Bytes_cons (f : SmsDeliver) :
    f.Bytes = f.flagOctet :: (f.OriginatingAddress ++
      (f.ProtocolIdentifier :: f.DataCodingScheme ::
        (f.ServiceCentreTimestamp ++ f.UserDataLength :: f.UserData))) := by
  unfold SmsDeliver.Bytes
  simp [List.cons_append, List.append_assoc]

theorem submit_Bytes_cons (f : SmsSubmit) :
    f.Bytes = f.flagOctet :: (f.MessageReference % 256 ::
      (f.DestinationAddress ++
        (f.ProtocolIdentifier :: f.DataCodingScheme ::
          ((if f.ValidityPeriodFormat % 4 ≠ 0 then [f.ValidityPeriod % 256]
            else []) ++ f.UserDataLength :: f.UserData)))) := by
  unfold SmsSubmit.Bytes
  simp [List.cons_append, List.append_assoc]

theorem status_Bytes_cons (f : SmsStatusReport) :
    f.Bytes = f.flagOctet :: (f.MessageReference % 256 ::
      (f.DestinationAddress ++ (f.ServiceCentreTimestamp ++
        (f.DischargeTimestamp ++
          f.Status % 256 :: 0 :: f.UserDataLength :: f.UserData)))) := by
  unfold SmsStatusReport.Bytes
  simp [List.cons_append, List.append_assoc]

theorem deliver_flagOctet_mod4 (f : SmsDeliver)
    (h : f.MessageTypeIndicator < 4) :
    f.flagOctet % 4 = f.MessageTypeIndicator := by
  obtain ⟨mti, mms, lp, rp, udhi, sri, oa, pid, dcs, scts, udl, ud⟩ := f
  simp only at h ⊢
  unfold SmsDeliver.flagOctet
  exact (deliver_flag_recover mti mms lp rp udhi sri h).1

theorem submit_flagOctet_mod4 (f : SmsSubmit)
    (h : f.MessageTypeIndicator < 4) (hv : f.ValidityPeriodFormat < 4) :
    f.flagOctet % 4 = f.MessageTypeIndicator := by
  obtain ⟨mti, rd, vpf, rp, udhi, srr, mr, da, pid, dcs, vp, udl, ud⟩ := f
  simp only at h hv ⊢
  unfold SmsSubmit.flagOctet
  exact (submit_flag_recover mti rd rp udhi srr vpf h hv).1

theorem status_flagOctet_mod4 (f : SmsStatusReport)
    (h : f.MessageTypeIndicator < 4) :
    f.flagOctet % 4 = f.MessageTypeIndicator := by
  obtain ⟨mti, mms, lp, udhi, srq, mr, da, scts, dts, st, dcsf, udl, ud⟩ := f
  simp only at h ⊢
  unfold SmsStatusReport.flagOctet
  exact (status_flag_recover mti mms lp udhi srq h).1

theorem Message.PDU_deliver (m : Message) (f : SmsDeliver)
    (h0 : m.MsgType = 0) (hf : deliverFrame m = .ok f) :
    Message.PDU m = .ok (f.Bytes.length, smscField m ++ f.Bytes) := by
  unfold Message.PDU
  rw [if_pos h0, hf]
  rfl

theorem ReadFrom_PDU_deliver (m : Message) (f : SmsDeliver)
    (hsca : scaOK m.ServiceCenterAddress)
    (haddr : addrOK m.Address)
    (htsv : tsOK m.ServiceCenterTime)
    (hmti : f.MessageTypeIndicator = 0)
    (hudhi : f.UserDataHeaderIndicator = false)
    (hoa : f.OriginatingAddress = addrField m.Address)
    (hdcs : f.DataCodingScheme = m.Encoding)
    (hts : f.ServiceCentreTimestamp = m.ServiceCenterTime.PDU) :
    Message.ReadFrom (smscField m ++ f.Bytes) =
      readText
        { ServiceCenterAddress := m.ServiceCenterAddress
          MsgType := 0
          MoreMessagesToSend := f.MoreMessagesToSend
          LoopPrevention := f.LoopPrevention
          ReplyPathExists := f.ReplyPath
          UserDataStartsWithHeader := false
          StatusReportIndication := f.StatusReportIndication
          Address := m.Address
          Encoding := m.Encoding
          ServiceCenterTime := m.ServiceCenterTime }
        f.UserDataLength f.UserData ((smscField m).length + f.Bytes.length) := by
  rw [deliver_Bytes_cons]
  rw [ReadFrom_smsc m hsca.1 hsca.2]
  rw [← deliver_Bytes_cons]
  have hm4 := deliver_flagOctet_mod4 f (by rw [hmti]; decide)
  rw [hmti] at hm4
  simp only [hm4]
  rw [if_pos trivial]
  have hb : m.Address.PDU.2.length = blocks (m.Address.PDU.1 % 256) 2 + 1 := by
    have h2 := haddr.2
    rw [pnPDU_snd_length', pnPDU_fst, Nat.mod_eq_of_lt (by omega)]
  have hA : PhoneNumber.ReadFrom f.OriginatingAddress.tail = m.Address := by
    rw [hoa]
    show PhoneNumber.ReadFrom m.Address.PDU.2 = m.Address
    exact pn_roundtrip _ haddr.1
  have hT : Timestamp.ReadFrom f.ServiceCentreTimestamp =
      m.ServiceCenterTime := by
    rw [hts]
    exact ts_roundtrip _ htsv
  unfold readDeliver
  rw [deliver_FromBytes_Bytes f (m.Address.PDU.1 % 256) m.Address.PDU.2
    (by rw [hmti]; decide) (by rw [hoa]; rfl) hb (by rw [hts]; rfl)]
  simp only [hudhi, hA, hT, hdcs]
  rfl

theorem Message.PDU_submit (m : Message) (f : SmsSubmit)
    (h1 : m.MsgType = 1) (hf : submitFrame m = .ok f) :
    Message.PDU m = .ok (f.Bytes.length, smscField m ++ f.Bytes) := by
  unfold Message.PDU
  rw [if_neg (by omega), if_pos h1, hf]
  rfl

theorem ReadFrom_PDU_submit (m : Message) (f : SmsSubmit)
    (hsca : scaOK m.ServiceCenterAddress)
    (haddr : addrOK m.Address)
    (hmti : f.MessageTypeIndicator = 1)
    (hvpflt : f.ValidityPeriodFormat < 4)
    (hmr : f.MessageReference < 256)
    (hvp0 : f.ValidityPeriodFormat = 0 → f.ValidityPeriod = 0)
    (hvplt : f.ValidityPeriod < 256)
    (hda : f.DestinationAddress = addrField m.Address) :
    Message.ReadFrom (smscField m ++ f.Bytes) =
      readText
        { ServiceCenterAddress := m.ServiceCenterAddress
          MsgType := 1
          RejectDuplicates := f.RejectDuplicates
          VPFormat := f.ValidityPeriodFormat
          VP := if f.ValidityPeriodFormat = 0 then 0
            else vpRead f.ValidityPeriod
          MessageReference := f.MessageReference
          ReplyPathExists := f.ReplyPath
          UserDataStartsWithHeader := f.UserDataHeaderIndicator
          StatusReportRequest := f.StatusReportRequest
          Address := m.Address
          Encoding := f.DataCodingScheme }
        f.UserDataLength f.UserData ((smscField m).length + f.Bytes.length) := by
  rw [submit_Bytes_cons]
  rw [ReadFrom_smsc m hsca.1 hsca.2]
  rw [← submit_Bytes_cons]
  have hm4 := submit_flagOctet_mod4 f (by rw [hmti]; decide) hvpflt
  rw [hmti] at hm4
  simp only [hm4]
  rw [if_neg (by decide), if_pos trivial]
  have h2 := haddr.2
  have hb : m.Address.PDU.2.length = blocks (m.Address.PDU.1 % 256) 2 + 1 := by
    rw [pnPDU_snd_length', pnPDU_fst, Nat.mod_eq_of_lt (by omega)]
  have hA : PhoneNumber.ReadFrom f.DestinationAddress.tail = m.Address := by
    rw [hda]
    show PhoneNumber.ReadFrom m.Address.PDU.2 = m.Address
    exact pn_roundtrip _ haddr.1
  unfold readSubmit
  rw [submit_FromBytes_Bytes f (m.Address.PDU.1 % 256) m.Address.PDU.2
    (by rw [hmti]; decide) hvpflt hmr hvp0 hvplt (by rw [hda]; rfl) hb]
  simp only [hA]
  by_cases hz : f.ValidityPeriodFormat = 0
  · rw [if_neg (not_not_intro hz), if_pos hz]
    rfl
  · rw [if_pos hz, if_neg hz]
    rfl

theorem roundtrip_deliver (m : Message) (h : deliverCodable m) :
    ∃ n bs, Message.PDU m = .ok (n, bs) ∧
      Message.ReadFrom bs = some ⟨bs.length, m, none⟩ := by
  obtain ⟨h1, henc, htext, hsca, haddr, hts, hudsh, hudh, hvp, hvpf, hdt,
    hmr, hst, hsrr, hsrq, hrd⟩ := h
  obtain ⟨mt, enc, vp, vpf, sct, dt, sca, addr, text, udh, mrf, st, rpe,
    udsh, sri, srr, srq, mms, lp, rd⟩ := m
  simp only at h1 henc htext hsca haddr hts hudsh hudh hvp hvpf hdt hmr hst hsrr hsrq hrd
  subst h1
  subst hudsh
  subst hudh
  subst hvp
  subst hvpf
  subst hdt
  subst hmr
  subst hst
  subst hsrr
  subst hsrq
  subst hrd
  have haf := addrField_eq addr haddr.1 haddr.2
  by_cases he8 : enc = 8
  · subst he8
    rw [if_pos rfl] at htext
    have hframe :
        deliverFrame
          { MsgType := 0, Encoding := 8, ServiceCenterTime := sct,
            ServiceCenterAddress := sca, Address := addr, Text := text,
            ReplyPathExists := rpe, StatusReportIndication := sri,
            MoreMessagesToSend := mms, LoopPrevention := lp } =
        .ok { MessageTypeIndicator := 0, MoreMessagesToSend := mms,
              LoopPrevention := lp, ReplyPath := rpe,
              UserDataHeaderIndicator := false, StatusReportIndication := sri,
              OriginatingAddress := addrField addr, ProtocolIdentifier := 0,
              DataCodingScheme := 8, ServiceCentreTimestamp := sct.PDU,
              UserDataLength := (EncodeUcs2 text).length % 256,
              UserData := EncodeUcs2 text } := by
      unfold deliverFrame
      rw [userDataFor_ucs2]
      rfl
    refine ⟨_, _, Message.PDU_deliver _ _ rfl hframe, ?_⟩
    rw [ReadFrom_PDU_deliver _ _ hsca haddr hts rfl rfl rfl rfl rfl]
    rw [readText_ucs2 _ _ text rfl rfl htext]
    rw [List.length_append]
  · have h7 : enc = 0 ∨ enc = 0xF0 := by
      rcases henc with h | h | h
      · exact Or.inl h
      · exact Or.inr h
      · exact absurd h he8
    rw [if_neg he8] at htext
    obtain ⟨hbt, hlt⟩ := htext
    have henclt : enc % 256 = enc := by
      rcases h7 with h | h <;> subst h <;> rfl
    have hframe :
        deliverFrame
          { MsgType := 0, Encoding := enc, ServiceCenterTime := sct,
            ServiceCenterAddress := sca, Address := addr, Text := text,
            ReplyPathExists := rpe, StatusReportIndication := sri,
            MoreMessagesToSend := mms, LoopPrevention := lp } =
        .ok { MessageTypeIndicator := 0, MoreMessagesToSend := mms,
              LoopPrevention := lp, ReplyPath := rpe,
              UserDataHeaderIndicator := false, StatusReportIndication := sri,
              OriginatingAddress := addrField addr, ProtocolIdentifier := 0,
              DataCodingScheme := enc, ServiceCentreTimestamp := sct.PDU,
              UserDataLength := goLen text % 256,
              UserData := Encode7Bit text } := by
      unfold deliverFrame
      rw [userDataFor_7bit enc text h7]
      simp only [henclt]
      rfl
    refine ⟨_, _, Message.PDU_deliver _ _ rfl hframe, ?_⟩
    rw [ReadFrom_PDU_deliver _ _ hsca haddr hts rfl rfl rfl rfl rfl]
    rw [readText_7bit _ _ text h7 hbt hlt]
    rw [List.length_append]

theorem roundtrip_submit (m : Message) (h : submitCodable m) :
    ∃ n bs, Message.PDU m = .ok (n, bs) ∧
      Message.ReadFrom bs = some ⟨bs.length, m, none⟩ := by
  obtain ⟨h1, henc, htext, hsca, haddr, hmrf, hvpc, hudsh, hudh, hsct, hdt,
    hst, hsri, hsrq, hmms, hlp⟩ := h
  obtain ⟨mt, enc, vp, vpf, sct, dt, sca, addr, text, udh, mrf, st, rpe,
    udsh, sri, srr, srq, mms, lp, rd⟩ := m
  simp only at h1 henc htext hsca haddr hmrf hvpc hudsh hudh hsct hdt hst hsri hsrq hmms hlp
  subst h1
  subst hudsh
  subst hudh
  subst hsct
  subst hdt
  subst hst
  subst hsri
  subst hsrq
  subst hmms
  subst hlp
  have hmrm : mrf % 256 = mrf := Nat.mod_eq_of_lt hmrf
  rcases hvpc with ⟨hvpf, hvp⟩ | ⟨hvpf, hvpr⟩
  all_goals subst hvpf
  · subst hvp
    by_cases he8 : enc = 8
    · subst he8
      rw [if_pos rfl] at htext
      have hframe :
          submitFrame
            { MsgType := 1, Encoding := 8, ServiceCenterAddress := sca,
              Address := addr, Text := text, MessageReference := mrf,
              ReplyPathExists := rpe, StatusReportRequest := srr,
              RejectDuplicates := rd } =
          .ok { MessageTypeIndicator := 1, RejectDuplicates := rd,
                ValidityPeriodFormat := 0, ReplyPath := rpe,
                UserDataHeaderIndicator := false,
                StatusReportRequest := srr, MessageReference := mrf,
                DestinationAddress := addrField addr,
                ProtocolIdentifier := 0, DataCodingScheme := 8,
                ValidityPeriod := 0,
                UserDataLength := (EncodeUcs2 text).length % 256,
                UserData := EncodeUcs2 text } := by
        unfold submitFrame
        rw [if_neg (show ¬((0:Nat) = 1 ∨ (0:Nat) = 3) from by decide),
          userDataFor_ucs2]
        simp only [hmrm]
        rfl
      refine ⟨_, _, Message.PDU_submit _ _ rfl hframe, ?_⟩
      rw [ReadFrom_PDU_submit _ _ hsca haddr rfl
        (show (0:Nat) < 4 from by decide) hmrf (fun _ => rfl)
        (show (0:Nat) < 256 from by decide) rfl]
      rw [readText_ucs2 _ _ text rfl rfl htext]
      rw [List.length_append]
      rfl
    · have h7 : enc = 0 ∨ enc = 0xF0 := by
        rcases henc with h | h | h
        · exact Or.inl h
        · exact Or.inr h
        · exact absurd h he8
      rw [if_neg he8] at htext
      obtain ⟨hbt, hlt⟩ := htext
      have henclt : enc % 256 = enc := by
        rcases h7 with h | h <;> subst h <;> rfl
      have hframe :
          submitFrame
            { MsgType := 1, Encoding := enc, ServiceCenterAddress := sca,
              Address := addr, Text := text, MessageReference := mrf,
              ReplyPathExists := rpe, StatusReportRequest := srr,
              RejectDuplicates := rd } =
          .ok { MessageTypeIndicator := 1, RejectDuplicates := rd,
                ValidityPeriodFormat := 0, ReplyPath := rpe,
                UserDataHeaderIndicator := false,
                StatusReportRequest := srr, MessageReference := mrf,
                DestinationAddress := addrField addr,
                ProtocolIdentifier := 0, DataCodingScheme := enc,
                ValidityPeriod := 0,
                UserDataLength := goLen text % 256,
                UserData := Encode7Bit text } := by
        unfold submitFrame
        rw [if_neg (show ¬((0:Nat) = 1 ∨ (0:Nat) = 3) from by decide),
          userDataFor_7bit enc text h7]
        simp only [hmrm, henclt]
        rfl
      refine ⟨_, _, Message.PDU_submit _ _ rfl hframe, ?_⟩
      rw [ReadFrom_PDU_submit _ _ hsca haddr rfl
        (show (0:Nat) < 4 from by decide) hmrf (fun _ => rfl)
        (show (0:Nat) < 256 from by decide) rfl]
      rw [readText_7bit _ _ text h7 hbt hlt]
      rw [List.length_append]
      rfl
  · have hvom : vpOctet vp % 256 = vpOctet vp := Nat.mod_eq_of_lt (vpOctet_lt vp)
    by_cases he8 : enc = 8
    · subst he8
      rw [if_pos rfl] at htext
      have hframe :
          submitFrame
            { MsgType := 1, Encoding := 8, VP := vp, VPFormat := 2,
              ServiceCenterAddress := sca, Address := addr, Text := text,
              MessageReference := mrf, ReplyPathExists := rpe,
              StatusReportRequest := srr, RejectDuplicates := rd } =
          .ok { MessageTypeIndicator := 1, RejectDuplicates := rd,
                ValidityPeriodFormat := 2, ReplyPath := rpe,
                UserDataHeaderIndicator := false,
                StatusReportRequest := srr, MessageReference := mrf,
                DestinationAddress := addrField addr,
                ProtocolIdentifier := 0, DataCodingScheme := 8,
                ValidityPeriod := vpOctet vp,
                UserDataLength := (EncodeUcs2 text).length % 256,
                UserData := EncodeUcs2 text } := by
        unfold submitFrame
        rw [if_neg (show ¬((2:Nat) = 1 ∨ (2:Nat) = 3) from by decide),
          userDataFor_ucs2]
        simp only [hmrm, hvom]
        rfl
      refine ⟨_, _, Message.PDU_submit _ _ rfl hframe, ?_⟩
      rw [ReadFrom_PDU_submit _ _ hsca haddr rfl
        (show (2:Nat) < 4 from by decide) hmrf
        (fun hx => absurd hx (show ¬(2:Nat) = 0 from by decide))
        (vpOctet_lt vp) rfl]
      rw [show (if (2:Nat) = 0 then (0:ValidityPeriod)
          else vpRead (vpOctet vp)) = vp from by
        rw [if_neg (by decide)]
        exact hvpr]
      rw [readText_ucs2 _ _ text rfl rfl htext]
      rw [List.length_append]
    · have h7 : enc = 0 ∨ enc = 0xF0 := by
        rcases henc with h | h | h
        · exact Or.inl h
        · exact Or.inr h
        · exact absurd h he8
      rw [if_neg he8] at htext
      obtain ⟨hbt, hlt⟩ := htext
      have henclt : enc % 256 = enc := by
        rcases h7 with h | h <;> subst h <;> rfl
      have hframe :
          submitFrame
            { MsgType := 1, Encoding := enc, VP := vp, VPFormat := 2,
              ServiceCenterAddress := sca, Address := addr, Text := text,
              MessageReference := mrf, ReplyPathExists := rpe,
              StatusReportRequest := srr, RejectDuplicates := rd } =
          .ok { MessageTypeIndicator := 1, RejectDuplicates := rd,
                ValidityPeriodFormat := 2, ReplyPath := rpe,
                UserDataHeaderIndicator := false,
                StatusReportRequest := srr, MessageReference := mrf,
                DestinationAddress := addrField addr,
                ProtocolIdentifier := 0, DataCodingScheme := enc,
                ValidityPeriod := vpOctet vp,
                UserDataLength := goLen text % 256,
                UserData := Encode7Bit text } := by
        unfold submitFrame
        rw [if_neg (show ¬((2:Nat) = 1 ∨ (2:Nat) = 3) from by decide),
          userDataFor_7bit enc text h7]
        simp only [hmrm, henclt, hvom]
        rfl
      refine ⟨_, _, Message.PDU_submit _ _ rfl hframe, ?_⟩
      rw [ReadFrom_PDU_submit _ _ hsca haddr rfl
        (show (2:Nat) < 4 from by decide) hmrf
        (fun hx => absurd hx (show ¬(2:Nat) = 0 from by decide))
        (vpOctet_lt vp) rfl]
      rw [show (if (2:Nat) = 0 then (0:ValidityPeriod)
          else vpRead (vpOctet vp)) = vp from by
        rw [if_neg (by decide)]
        exact hvpr]
      rw [readText_7bit _ _ text h7 hbt hlt]
      rw [List.length_append]

theorem Message.PDU_status (m : Message) (f : SmsStatusReport)
    (h1 : m.MsgType = 2) (hf : statusFrame m = .ok f) :
    Message.PDU m = .ok (f.Bytes.length, smscField m ++ f.Bytes) := by
  unfold Message.PDU
  rw [if_neg (by omega), if_neg (by omega), if_pos h1, hf]
  rfl

theorem ReadFrom_PDU_status (m : Message) (f : SmsStatusReport)
    (hsca : scaOK m.ServiceCenterAddress)
    (haddr : addrOK m.Address)
    (htsv : tsOK m.ServiceCenterTime)
    (hdtv : tsOK m.DischargeTime)
    (hmti : f.MessageTypeIndicator = 2)
    (hudhi : f.UserDataHeaderIndicator = false)
    (hmr : f.MessageReference < 256)
    (hst : f.Status < 256)
    (hdcs : f.DataCodingScheme = 0)
    (hda : f.DestinationAddress = addrField m.Address)
    (hts : f.ServiceCentreTimestamp = m.ServiceCenterTime.PDU)
    (hdts : f.DischargeTimestamp = m.DischargeTime.PDU) :
    Message.ReadFrom (smscField m ++ f.Bytes) =
      readText
        { ServiceCenterAddress := m.ServiceCenterAddress
          MsgType := 2
          MessageReference := f.MessageReference
          MoreMessagesToSend := f.MoreMessagesToSend
          LoopPrevention := f.LoopPrevention
          UserDataStartsWithHeader := false
          StatusReportQualificator := f.StatusReportQualificator
          Status := f.Status
          Address := m.Address
          Encoding := 0
          ServiceCenterTime := m.ServiceCenterTime
          DischargeTime := m.DischargeTime }
        f.UserDataLength f.UserData ((smscField m).length + f.Bytes.length) := by
  rw [status_Bytes_cons]
  rw [ReadFrom_smsc m hsca.1 hsca.2]
  rw [← status_Bytes_cons]
  have hm4 := status_flagOctet_mod4 f (by rw [hmti]; decide)
  rw [hmti] at hm4
  simp only [hm4]
  rw [if_neg (by decide), if_neg (by decide), if_pos trivial]
  have h2 := haddr.2
  have hb : m.Address.PDU.2.length = blocks (m.Address.PDU.1 % 256) 2 + 1 := by
    rw [pnPDU_snd_length', pnPDU_fst, Nat.mod_eq_of_lt (by omega)]
  have hA : PhoneNumber.ReadFrom f.DestinationAddress.tail = m.Address := by
    rw [hda]
    show PhoneNumber.ReadFrom m.Address.PDU.2 = m.Address
    exact pn_roundtrip _ haddr.1
  have hT : Timestamp.ReadFrom f.ServiceCentreTimestamp =
      m.ServiceCenterTime := by
    rw [hts]
    exact ts_roundtrip _ htsv
  have hD : Timestamp.ReadFrom f.DischargeTimestamp = m.DischargeTime := by
    rw [hdts]
    exact ts_roundtrip _ hdtv
  unfold readStatus
  rw [status_FromBytes_Bytes f (m.Address.PDU.1 % 256)
    m.Address.PDU.2 (by rw [hmti]; decide) hmr hst hdcs (by rw [hda]; rfl)
    hb (by rw [hts]; rfl) (by rw [hdts]; rfl)]
  simp only [hudhi, hA, hT, hD, hdcs]
  rfl

theorem roundtrip_status (m : Message) (h : statusCodable m) :
    ∃ n bs, Message.PDU m = .ok (n, bs) ∧
      Message.ReadFrom bs = some ⟨bs.length, m, none⟩ := by
  obtain ⟨h1, henc, hbt, hlt, hsca, haddr, hts, hdt, hmrf, hstf, hudsh,
    hudh, hvp, hvpf, hrpe, hsri, hsrr, hrd⟩ := h
  obtain ⟨mt, enc, vp, vpf, sct, dt, sca, addr, text, udh, mrf, st, rpe,
    udsh, sri, srr, srq, mms, lp, rd⟩ := m
  simp only at h1 henc hbt hlt hsca haddr hts hdt hmrf hstf hudsh hudh hvp hvpf hrpe hsri hsrr hrd
  subst h1
  subst henc
  subst hudsh
  subst hudh
  subst hvp
  subst hvpf
  subst hrpe
  subst hsri
  subst hsrr
  subst hrd
  have hmrm : mrf % 256 = mrf := Nat.mod_eq_of_lt hmrf
  have hstm : st % 256 = st := Nat.mod_eq_of_lt hstf
  have hframe :
      statusFrame
        { MsgType := 2, ServiceCenterTime := sct, DischargeTime := dt,
          ServiceCenterAddress := sca, Address := addr, Text := text,
          MessageReference := mrf, Status := st,
          StatusReportQualificator := srq, MoreMessagesToSend := mms,
          LoopPrevention := lp } =
      .ok { MessageTypeIndicator := 2, MoreMessagesToSend := mms,
            LoopPrevention := lp, UserDataHeaderIndicator := false,
            StatusReportQualificator := srq, MessageReference := mrf,
            DestinationAddress := addrField addr,
            ServiceCentreTimestamp := sct.PDU,
            DischargeTimestamp := dt.PDU, Status := st,
            DataCodingScheme := 0,
            UserDataLength := goLen text % 256,
            UserData := Encode7Bit text } := by
    unfold statusFrame
    rw [userDataFor_7bit 0 text (Or.inl rfl)]
    simp only [hmrm, hstm]
    rfl
  refine ⟨_, _, Message.PDU_status _ _ rfl hframe, ?_⟩
  rw [ReadFrom_PDU_status _ _ hsca haddr hts hdt rfl rfl hmrf hstf rfl rfl
    rfl rfl]
  rw [readText_7bit _ _ text (Or.inl rfl) hbt hlt]
  rw [List.length_append]

/-! ## Error classification: the decode path cannot raise the non-relative
error -/

theorem deliver_FromBytes_error (l : List Nat) (e : GoErr)
    (h : (SmsDeliver.FromBytes l).2 = .error e) : e = .incorrectSize := by
  unfold SmsDeliver.FromBytes at h
  split_ifs at h <;> simp_all

theorem submit_FromBytes_error (l : List Nat) (e : GoErr)
    (h : (SmsSubmit.FromBytes l).2 = .error e) : e = .incorrectSize := by
  unfold SmsSubmit.FromBytes at h
  split_ifs at h <;> simp_all

theorem status_FromBytes_error (l : List Nat) (e : GoErr)
    (h : (SmsStatusReport.FromBytes l).2 = .error e) : e = .incorrectSize := by
  unfold SmsStatusReport.FromBytes at h
  split_ifs at h <;> simp_all

theorem parseIEsGo_error (fuel : Nat) (l : List Nat) (e : GoErr)
    (h : parseIEsGo fuel l = .error e) : e = .incorrectUDHLength := by
  induction fuel generalizing l with
  | zero =>
    match l with
    | [] => exact absurd h (by simp [parseIEsGo])
    | [a] => simpa [parseIEsGo] using h.symm
    | a :: b :: t => simpa [parseIEsGo] using h.symm
  | succ fuel ih =>
    match l with
    | [] => exact absurd h (by simp [parseIEsGo])
    | [a] => simpa [parseIEsGo] using h.symm
    | a :: b :: t =>
      unfold parseIEsGo at h
      split_ifs at h with hl
      · simpa using h.symm
      · split at h
        · rename_i e2 heq
          injection h with h2
          subst h2
          exact ih _ heq
        · exact absurd h (by simp)

theorem udhRead_error (l : List Nat) (e : GoErr)
    (h : udhRead l = .error e) : e = .incorrectUDHLength := by
  unfold udhRead at h
  split at h
  · simpa using h.symm
  · split_ifs at h
    · simpa using h.symm
    · exact parseIEsGo_error _ _ _ h

theorem ucs2Match_error (d : List Nat) (e : GoErr)
    (h : (match ucs2Units d with
          | none => Except.error GoErr.incorrectSize
          | some us => Except.ok (joinSurrogates us)) = .error e) :
    e = .incorrectSize := by
  split at h
  · injection h with h2
    exact h2.symm
  · exact absurd h (by simp)

theorem DecodeUcs2_error (l : List Nat) (b : Bool) (e : GoErr)
    (h : DecodeUcs2 l b = .error e) : e = .incorrectSize := by
  unfold DecodeUcs2 at h
  exact ucs2Match_error _ _ h

theorem readText_err (m : Message) (udl : Nat) (ud : List Nat) (n : Nat)
    (r : ReadResult) (h : readText m udl ud n = some r) :
    r.err ≠ some .nonRelative := by
  unfold readText at h
  split_ifs at h
  · split at h
    · exact absurd h (by simp)
    · cases Option.some.inj h
      simp
  · split at h
    · cases Option.some.inj h
      rename_i e heq
      have := DecodeUcs2_error _ _ _ heq
      subst this
      simp
    · cases Option.some.inj h
      simp
  · cases Option.some.inj h
    simp

theorem readDeliver_no_nonrel (m1 : Message) (tp : List Nat) (base : Nat)
    (r : ReadResult) (h : readDeliver m1 tp base = some r) :
    r.err ≠ some .nonRelative := by
  simp only [readDeliver] at h
  split at h
  · cases Option.some.inj h
    rename_i e heq
    have := deliver_FromBytes_error _ _ heq
    subst this
    simp
  · split_ifs at h
    · split at h
      · cases Option.some.inj h
        rename_i e heq
        have := udhRead_error _ _ heq
        subst this
        simp
      · exact readText_err _ _ _ _ _ h
    · exact readText_err _ _ _ _ _ h

theorem readSubmit_no_nonrel (m1 : Message) (hv : m1.VPFormat = 0)
    (tp : List Nat) (base : Nat) (r : ReadResult)
    (h : readSubmit m1 tp base = some r) :
    r.err ≠ some .nonRelative := by
  simp only [readSubmit] at h
  split at h
  · cases Option.some.inj h
    rename_i e heq
    have := submit_FromBytes_error _ _ heq
    subst this
    simp
  · simp only [hv] at h
    rw [if_neg (show ¬((0:Nat) = 3 ∨ (0:Nat) = 1) from by decide)] at h
    split_ifs at h <;> exact readText_err _ _ _ _ _ h

theorem readStatus_no_nonrel (m1 : Message) (tp : List Nat) (base : Nat)
    (r : ReadResult) (h : readStatus m1 tp base = some r) :
    r.err ≠ some .nonRelative := by
  simp only [readStatus] at h
  split at h
  · cases Option.some.inj h
    rename_i e heq
    have := status_FromBytes_error _ _ heq
    subst this
    simp
  · split_ifs at h
    · split at h
      · cases Option.some.inj h
        rename_i e heq
        have := udhRead_error _ _ heq
        subst this
        simp
      · exact readText_err _ _ _ _ _ h
    · exact readText_err _ _ _ _ _ h

theorem ReadFrom_no_nonrel (octets : List Nat) (r : ReadResult)
    (h : Message.ReadFrom octets = some r) : r.err ≠ some .nonRelative := by
  rw [Message.ReadFrom.eq_def] at h
  split at h
  · cases Option.some.inj h
    simp
  · split_ifs at h
    · cases Option.some.inj h
      simp
    · cases Option.some.inj h
      simp
    · split at h
      · cases Option.some.inj h
        simp
      · simp only [] at h
        split_ifs at h
        · exact readDeliver_no_nonrel _ _ _ _ h
        · exact readSubmit_no_nonrel _ rfl _ _ _ h
        · exact readStatus_no_nonrel _ _ _ _ h
        · cases Option.some.inj h
          simp

/-! ## User-data-header behaviour of the decode branches -/

theorem readText_udh (m : Message) (udl : Nat) (ud : List Nat) (n : Nat)
    (r : ReadResult) (h : readText m udl ud n = some r) :
    r.msg.UserDataHeader = m.UserDataHeader := by
  unfold readText at h
  split_ifs at h
  · split at h
    · exact absurd h (by simp)
    · cases Option.some.inj h
      rfl
  · split at h
    · cases Option.some.inj h
      rfl
    · cases Option.some.inj h
      rfl
  · cases Option.some.inj h
    rfl

theorem readDeliver_udh (m1 : Message) (tp : List Nat) (base : Nat)
    (k : Nat) (f : SmsDeliver) (hl : UserDataHeader) (r : ReadResult)
    (hfb : SmsDeliver.FromBytes tp = (k, .ok f))
    (hu : f.UserDataHeaderIndicator = true)
    (hh : udhRead f.UserData = .ok hl)
    (h : readDeliver m1 tp base = some r) :
    r.msg.UserDataHeader = hl := by
  simp only [readDeliver, hfb] at h
  rw [if_pos hu] at h
  simp only [hh] at h
  rw [readText_udh _ _ _ _ _ h]

theorem readStatus_udh (m1 : Message) (tp : List Nat) (base : Nat)
    (k : Nat) (f : SmsStatusReport) (hl : UserDataHeader) (r : ReadResult)
    (hfb : SmsStatusReport.FromBytes tp = (k, .ok f))
    (hu : f.UserDataHeaderIndicator = true)
    (hh : udhRead f.UserData = .ok hl)
    (h : readStatus m1 tp base = some r) :
    r.msg.UserDataHeader = hl := by
  simp only [readStatus, hfb] at h
  rw [if_pos hu] at h
  simp only [hh] at h
  rw [readText_udh _ _ _ _ _ h]

theorem readSubmit_udh (m1 : Message) (tp : List Nat) (base : Nat)
    (r : ReadResult) (h : readSubmit m1 tp base = some r) :
    r.msg.UserDataHeader = m1.UserDataHeader := by
  simp only [readSubmit] at h
  split at h
  · cases Option.some.inj h
    rfl
  · split_ifs at h
    · cases Option.some.inj h
      rfl
    · rw [readText_udh _ _ _ _ _ h]
    · rw [readText_udh _ _ _ _ _ h]

/-! ## Encoding-switch error behaviour -/

theorem userDataFor_bad (enc : Nat) (t : GoStr)
    (h : ¬(enc = 0 ∨ enc = 0xF0 ∨ enc = 8)) :
    userDataFor enc t = .error .unknownEncoding := by
  unfold userDataFor
  rw [if_neg (by tauto), if_neg (by tauto)]

theorem userDataFor_good (enc : Nat) (t : GoStr)
    (h : enc = 0 ∨ enc = 0xF0 ∨ enc = 8) :
    ∃ p, userDataFor enc t = .ok p := by
  rcases h with h | h | h
  · exact ⟨_, userDataFor_7bit _ _ (Or.inl h)⟩
  · exact ⟨_, userDataFor_7bit _ _ (Or.inr h)⟩
  · subst h
    exact ⟨_, userDataFor_ucs2 t⟩

/-! ## The claims -/

/-- C1: encoding a message of the supported subset and decoding the octets
yields the message back. The supported subset is per message type: the
type-specific codable predicates keep the fields the frame on the wire
carries, and the StatusReport one admits only the default 7-bit encoding,
since its frame carries no data-coding-scheme octet. -/
theorem C1_roundtrip (m : Message)
    (h : deliverCodable m ∨ submitCodable m ∨ statusCodable m) :
    ∃ n bs, Message.PDU m = .ok (n, bs) ∧
      Message.ReadFrom bs = some ⟨bs.length, m, none⟩ := by
  rcases h with h | h | h
  · exact roundtrip_deliver m h
  · exact roundtrip_submit m h
  · exact roundtrip_status m h

theorem C1_roundtrip_witness :
    (deliverCodable { Text := [84, 101, 115, 116] } ∨
      submitCodable { Text := [84, 101, 115, 116] } ∨
      statusCodable { Text := [84, 101, 115, 116] }) ∧
    (∃ n bs, Message.PDU { Text := [84, 101, 115, 116] } = .ok (n, bs) ∧
      Message.ReadFrom bs =
        some ⟨bs.length, { Text := [84, 101, 115, 116] }, none⟩) := by
  have hc : deliverCodable { Text := [84, 101, 115, 116] } := by
    refine ⟨rfl, Or.inl rfl, ?_, ?_, ?_, ?_, rfl, rfl, rfl, rfl, rfl, rfl,
      rfl, rfl, rfl, rfl⟩
    · rw [if_neg (by decide)]
      exact ⟨by decide, by decide⟩
    · exact ⟨by decide, by decide⟩
    · exact ⟨by decide, by decide⟩
    · exact (by decide)
  exact ⟨Or.inl hc, C1_roundtrip _ (Or.inl hc)⟩

/-- C1 counterexample: a StatusReport message with the UCS-2 encoding lies in
the subset the claim describes, encodes successfully, yet does not decode to
itself — the StatusReport frame carries no data-coding-scheme octet, so the
decoder always reads the default encoding 0. -/
theorem C1_roundtrip_cex :
    (Message.PDU { MsgType := 2, Encoding := 8 }).map (fun p =>
      (Message.ReadFrom p.2).map fun r =>
        decide (r.msg = { MsgType := 2, Encoding := 8 })) =
      .ok (some false) := by
  rfl

/-- C2: the user-data-length octet each frame builder writes is the Go byte
length of the text (its UTF-8 length, mod 256) for the 7-bit encodings, and
the user-data byte count (mod 256) for UCS-2. -/
theorem C2_udl (m : Message)
    (hvp : ¬(m.VPFormat = 1 ∨ m.VPFormat = 3))
    (henc : m.Encoding = 0 ∨ m.Encoding = 0xF0 ∨ m.Encoding = 8) :
    (deliverFrame m).map (fun f => f.UserDataLength) =
      .ok ((if m.Encoding = 8 then (EncodeUcs2 m.Text).length
        else goLen m.Text) % 256) ∧
    (submitFrame m).map (fun f => f.UserDataLength) =
      .ok ((if m.Encoding = 8 then (EncodeUcs2 m.Text).length
        else goLen m.Text) % 256) ∧
    (statusFrame m).map (fun f => f.UserDataLength) =
      .ok ((if m.Encoding = 8 then (EncodeUcs2 m.Text).length
        else goLen m.Text) % 256) := by
  by_cases he8 : m.Encoding = 8
  · refine ⟨?_, ?_, ?_⟩
    · unfold deliverFrame
      rw [he8, userDataFor_ucs2]
      rfl
    · unfold submitFrame
      rw [if_neg hvp, he8, userDataFor_ucs2]
      rfl
    · unfold statusFrame
      rw [he8, userDataFor_ucs2]
      rfl
  · have h7 : m.Encoding = 0 ∨ m.Encoding = 0xF0 := by tauto
    refine ⟨?_, ?_, ?_⟩
    · unfold deliverFrame
      rw [userDataFor_7bit _ _ h7, if_neg he8]
      rfl
    · unfold submitFrame
      rw [if_neg hvp, userDataFor_7bit _ _ h7, if_neg he8]
      rfl
    · unfold statusFrame
      rw [userDataFor_7bit _ _ h7, if_neg he8]
      rfl

theorem C2_udl_witness :
    ¬(({ Text := [104, 105] } : Message).VPFormat = 1 ∨
      ({ Text := [104, 105] } : Message).VPFormat = 3) ∧
    ((deliverFrame { Text := [104, 105] }).map (fun f => f.UserDataLength) =
      .ok ((if ({ Text := [104, 105] } : Message).Encoding = 8
        then (EncodeUcs2 ({ Text := [104, 105] } : Message).Text).length
        else goLen ({ Text := [104, 105] } : Message).Text) % 256) ∧
    (submitFrame { Text := [104, 105] }).map (fun f => f.UserDataLength) =
      .ok ((if ({ Text := [104, 105] } : Message).Encoding = 8
        then (EncodeUcs2 ({ Text := [104, 105] } : Message).Text).length
        else goLen ({ Text := [104, 105] } : Message).Text) % 256) ∧
    (statusFrame { Text := [104, 105] }).map (fun f => f.UserDataLength) =
      .ok ((if ({ Text := [104, 105] } : Message).Encoding = 8
        then (EncodeUcs2 ({ Text := [104, 105] } : Message).Text).length
        else goLen ({ Text := [104, 105] } : Message).Text) % 256)) :=
  ⟨by decide, C2_udl { Text := [104, 105] } (by decide) (by decide)⟩

/-- C2 counterexample: the GSM basic character é (code point 233) occupies
one septet but two UTF-8 bytes, and the frame builder writes 2, the byte
count, into the user-data-length octet — not the septet count 1. -/
theorem C2_udl_cex :
    (deliverFrame { Text := [233] }).map (fun f => f.UserDataLength) =
      .ok 2 ∧
    (concatMap encodeChar [233]).length = 1 := ⟨rfl, rfl⟩

/-- C3: of the three decode branches only Deliver and StatusReport parse a
user-data header when the frame's UDHI bit is set; the Submit branch never
parses one and leaves the field as it was after the reset. -/
theorem C3_udh_parsing :
    (∀ m1 tp base k f hl r, SmsDeliver.FromBytes tp = (k, .ok f) →
        f.UserDataHeaderIndicator = true → udhRead f.UserData = .ok hl →
        readDeliver m1 tp base = some r → r.msg.UserDataHeader = hl) ∧
    (∀ m1 tp base k f hl r, SmsStatusReport.FromBytes tp = (k, .ok f) →
        f.UserDataHeaderIndicator = true → udhRead f.UserData = .ok hl →
        readStatus m1 tp base = some r → r.msg.UserDataHeader = hl) ∧
    (∀ m1 tp base r, readSubmit m1 tp base = some r →
        r.msg.UserDataHeader = m1.UserDataHeader) :=
  ⟨fun m1 tp base k f hl r hfb hu hh h =>
      readDeliver_udh m1 tp base k f hl r hfb hu hh h,
    fun m1 tp base k f hl r hfb hu hh h =>
      readStatus_udh m1 tp base k f hl r hfb hu hh h,
    fun m1 tp base r h => readSubmit_udh m1 tp base r h⟩

theorem C3_udh_witness :
    ∃ k f hl r,
      SmsDeliver.FromBytes [64, 0, 129, 0, 0, 0, 0, 0, 0, 0, 0, 0, 0, 2, 0, 0]
        = (k, .ok f) ∧
      f.UserDataHeaderIndicator = true ∧
      udhRead f.UserData = .ok hl ∧
      readDeliver Message.empty
        [64, 0, 129, 0, 0, 0, 0, 0, 0, 0, 0, 0, 0, 2, 0, 0] 0 = some r ∧
      r.msg.UserDataHeader = hl := by
  obtain ⟨r, hr⟩ : ∃ r, readDeliver Message.empty
      [64, 0, 129, 0, 0, 0, 0, 0, 0, 0, 0, 0, 0, 2, 0, 0] 0 = some r :=
    ⟨_, rfl⟩
  refine ⟨16, _, [(0, [])], r, rfl, rfl, rfl, hr, ?_⟩
  exact C3_udh_parsing.1 Message.empty
    [64, 0, 129, 0, 0, 0, 0, 0, 0, 0, 0, 0, 0, 2, 0, 0] 0 16 _ [(0, [])] r
    rfl rfl rfl hr

/-- C3 counterexample: a Submit TPDU with the UDHI bit set and a well-formed
user-data header at the front of the user data is accepted without error,
yet the decoded message's UserDataHeader stays empty while the header flag
is set — the Submit branch never parses the header. -/
theorem C3_udh_cex :
    (Message.ReadFrom [0, 65, 0, 0, 129, 0, 0, 0, 2, 0, 0]).map (fun r =>
      (r.err, r.msg.UserDataStartsWithHeader, r.msg.UserDataHeader)) =
      some (none, true, []) ∧
    udhRead [2, 0, 0] = .ok [(0, [])] := ⟨rfl, rfl⟩

/-- C4: the decode path does not truncate 7-bit text to the UDL count; the
helper compares the UDL against the byte length but slices by characters, so
a frame whose UDL lies between the character count and the byte count of the
decoded text makes it abort (the embedding's `none` models Go's slice
out-of-range panic). The user data here decodes to two copies of é. -/
theorem C4_truncation_panics :
    cutStr (Decode7Bit [133, 2]) 3 = none ∧
    Message.ReadFrom [0, 0, 0, 129, 0, 0, 0, 0, 0, 0, 0, 0, 0, 3, 133, 2] =
      none := ⟨rfl, rfl⟩

/-- C5: a completed decode never reports the non-relative validity-period
error: the Submit branch switches on the validity-period format of the
freshly reset message, which is always FieldNotPresent. -/
theorem C5_decode_never_nonrelative (octets : List Nat) (r : ReadResult)
    (h : Message.ReadFrom octets = some r) : r.err ≠ some .nonRelative :=
  ReadFrom_no_nonrel octets r h

theorem C5_witness :
    Message.ReadFrom [] = some ⟨1, Message.empty, some .eof⟩ ∧
    (⟨1, Message.empty, some .eof⟩ : ReadResult).err ≠
      some GoErr.nonRelative :=
  ⟨rfl, C5_decode_never_nonrelative [] _ rfl⟩

/-- C6: the error order of the encoder: an unknown message type always wins;
for a known type, Submit's validity-period check precedes the encoding
switch, so an unsupported encoding is reported only when that check passes;
with supported encoding and codable validity period the encoder returns
octets. -/
theorem C6_pdu_errors (m : Message) :
    (¬(m.MsgType = 0 ∨ m.MsgType = 1 ∨ m.MsgType = 2) →
      Message.PDU m = .error .unknownMessageType) ∧
    (m.MsgType = 1 → (m.VPFormat = 1 ∨ m.VPFormat = 3) →
      Message.PDU m = .error .nonRelative) ∧
    (¬(m.Encoding = 0 ∨ m.Encoding = 0xF0 ∨ m.Encoding = 8) →
      (m.MsgType = 0 ∨ m.MsgType = 2 ∨
        (m.MsgType = 1 ∧ ¬(m.VPFormat = 1 ∨ m.VPFormat = 3))) →
      Message.PDU m = .error .unknownEncoding) ∧
    ((m.Encoding = 0 ∨ m.Encoding = 0xF0 ∨ m.Encoding = 8) →
      (m.MsgType = 0 ∨ m.MsgType = 2 ∨
        (m.MsgType = 1 ∧ ¬(m.VPFormat = 1 ∨ m.VPFormat = 3))) →
      ∃ p, Message.PDU m = .ok p) := by
  refine ⟨?_, ?_, ?_, ?_⟩
  · intro hmt
    unfold Message.PDU
    rw [if_neg (fun hh => hmt (Or.inl hh)),
      if_neg (fun hh => hmt (Or.inr (Or.inl hh))),
      if_neg (fun hh => hmt (Or.inr (Or.inr hh)))]
  · intro h1 hvf
    unfold Message.PDU
    rw [if_neg (by omega), if_pos h1]
    unfold submitFrame
    rw [if_pos hvf]
    rfl
  · intro hbad hmt
    have hu := userDataFor_bad m.Encoding m.Text hbad
    rcases hmt with h0 | h0 | ⟨h0, hvf⟩
    · unfold Message.PDU
      rw [if_pos h0]
      unfold deliverFrame
      rw [hu]
      rfl
    · unfold Message.PDU
      rw [if_neg (by omega), if_neg (by omega), if_pos h0]
      unfold statusFrame
      rw [hu]
      rfl
    · unfold Message.PDU
      rw [if_neg (by omega), if_pos h0]
      unfold submitFrame
      rw [if_neg hvf, hu]
      rfl
  · intro hgood hmt
    obtain ⟨p, hp⟩ := userDataFor_good m.Encoding m.Text hgood
    rcases hmt with h0 | h0 | ⟨h0, hvf⟩
    · unfold Message.PDU
      rw [if_pos h0]
      unfold deliverFrame
      rw [hp]
      exact ⟨_, rfl⟩
    · unfold Message.PDU
      rw [if_neg (by omega), if_neg (by omega), if_pos h0]
      unfold statusFrame
      rw [hp]
      exact ⟨_, rfl⟩
    · unfold Message.PDU
      rw [if_neg (by omega), if_pos h0]
      unfold submitFrame
      rw [if_neg hvf, hp]
      exact ⟨_, rfl⟩

theorem C6_pdu_errors_witness :
    (¬((7:Nat) = 0 ∨ (7:Nat) = 1 ∨ (7:Nat) = 2) ∧
      Message.PDU { MsgType := 7 } = .error .unknownMessageType) ∧
    (¬((1:Nat) = 0 ∨ (1:Nat) = 0xF0 ∨ (1:Nat) = 8) ∧
      Message.PDU { Encoding := 1 } = .error .unknownEncoding) :=
  ⟨⟨by decide, (C6_pdu_errors { MsgType := 7 }).1 (by decide)⟩,
    ⟨by decide,
      (C6_pdu_errors { Encoding := 1 }).2.2.1 (by decide) (by decide)⟩⟩

/-- C6 counterexample: a Submit message whose encoding is unsupported and
whose validity-period format is Enhanced fails with the non-relative error,
not with the unsupported-encoding error the claim promises for every
unsupported encoding. -/
theorem C6_pdu_errors_cex :
    ¬((1:Nat) = 0 ∨ (1:Nat) = 0xF0 ∨ (1:Nat) = 8) ∧
    Message.PDU { MsgType := 1, Encoding := 1, VPFormat := 1 } =
      .error .nonRelative := ⟨by decide, rfl⟩

/-- C7: encoding a Submit message with an Absolute or Enhanced
validity-period format fails with the non-relative error and yields no
octets; with the Relative format the frame carries the one-octet relative
validity period. -/
theorem C7_submit_vp (m : Message) (h1 : m.MsgType = 1) :
    ((m.VPFormat = 1 ∨ m.VPFormat = 3) →
      Message.PDU m = .error .nonRelative) ∧
    (m.VPFormat = 2 → ∀ f, submitFrame m = .ok f →
      f.ValidityPeriodFormat = 2 ∧ f.ValidityPeriod = vpOctet m.VP % 256) := by
  constructor
  · intro hvf
    unfold Message.PDU
    rw [if_neg (by omega), if_pos h1]
    unfold submitFrame
    rw [if_pos hvf]
    rfl
  · intro h2 f hf
    unfold submitFrame at hf
    rw [if_neg (by rw [h2]; decide)] at hf
    cases hu : userDataFor m.Encoding m.Text with
    | error e =>
      rw [hu] at hf
      exact Except.noConfusion hf
    | ok p =>
      rw [hu] at hf
      cases Except.ok.inj hf
      refine ⟨?_, ?_⟩
      · show m.VPFormat % 256 = 2
        rw [h2]
      · show (if m.VPFormat = 2 then vpOctet m.VP % 256 else 0) =
          vpOctet m.VP % 256
        rw [if_pos h2]

theorem C7_submit_vp_witness :
    ((1:Nat) = 1 ∨ (1:Nat) = 3) ∧
    Message.PDU { MsgType := 1, VPFormat := 1 } = .error .nonRelative ∧
    (∃ f, submitFrame { MsgType := 1, VPFormat := 2, VP := 10 } = .ok f ∧
      f.ValidityPeriodFormat = 2 ∧ f.ValidityPeriod = vpOctet 10 % 256) :=
  ⟨Or.inl rfl,
    (C7_submit_vp { MsgType := 1, VPFormat := 1 } rfl).1 (Or.inl rfl),
    ⟨_, rfl,
      (C7_submit_vp { MsgType := 1, VPFormat := 2, VP := 10 } rfl).2 rfl _
        rfl⟩⟩

/-- C8: an input whose first octet, the SMSC octet count, exceeds 16 fails
with the incorrect-size error, zero bytes consumed, whatever the remaining
octets hold. -/
theorem C8_smsc_overlong (scLen : Nat) (rest : List Nat) (h : 16 < scLen) :
    Message.ReadFrom (scLen :: rest) =
      some ⟨0, Message.empty, some .incorrectSize⟩ := by
  unfold Message.ReadFrom
  rw [if_pos h]

theorem C8_smsc_overlong_witness :
    16 < 17 ∧
    Message.ReadFrom (17 :: [255, 255]) =
      some ⟨0, Message.empty, some .incorrectSize⟩ :=
  ⟨by decide, C8_smsc_overlong 17 [255, 255] (by decide)⟩

/-- C9: with an empty service-center address the encoded octets start with
the single octet 0, and everything after it is the TPDU, whose length is the
returned count. -/
theorem C9_empty_smsc (m : Message) (hsca : m.ServiceCenterAddress = [])
    (n : Nat) (bs : List Nat) (hp : Message.PDU m = .ok (n, bs)) :
    ∃ tpdu, bs = 0 :: tpdu ∧ n = tpdu.length := by
  have hsf : smscField m = [0] := by
    unfold smscField
    rw [hsca]
    rfl
  simp only [Message.PDU] at hp
  split_ifs at hp
  · cases hf : deliverFrame m with
    | error e =>
      rw [hf] at hp
      exact Except.noConfusion hp
    | ok f =>
      rw [hf] at hp
      cases Except.ok.inj hp
      exact ⟨f.Bytes, by rw [hsf]; rfl, rfl⟩
  · cases hf : submitFrame m with
    | error e =>
      rw [hf] at hp
      exact Except.noConfusion hp
    | ok f =>
      rw [hf] at hp
      cases Except.ok.inj hp
      exact ⟨f.Bytes, by rw [hsf]; rfl, rfl⟩
  · cases hf : statusFrame m with
    | error e =>
      rw [hf] at hp
      exact Except.noConfusion hp
    | ok f =>
      rw [hf] at hp
      cases Except.ok.inj hp
      exact ⟨f.Bytes, by rw [hsf]; rfl, rfl⟩

theorem C9_empty_smsc_witness :
    Message.empty.ServiceCenterAddress = [] ∧
    Message.PDU Message.empty =
      .ok (13, [0, 4, 0, 129, 0, 0, 0, 0, 0, 0, 0, 0, 0, 0]) ∧
    (∃ tpdu, [0, 4, 0, 129, 0, 0, 0, 0, 0, 0, 0, 0, 0, 0] = 0 :: tpdu ∧
      13 = tpdu.length) :=
  ⟨rfl, rfl, C9_empty_smsc Message.empty rfl 13 _ rfl⟩

/-- C10: the truncation helper is partial in the Go sense: it compares the
cut count against the byte length of the string but slices by characters, so
a count between the character count and the byte count of a multi-byte
string makes it abort (the embedding's `none` models Go's slice
out-of-range panic) instead of returning the string unchanged. The two
Greek letters here are two characters in four bytes. -/
theorem C10_cutStr_panics :
    ([948, 949] : GoStr).length = 2 ∧ goLen [948, 949] = 4 ∧
    cutStr [948, 949] 3 = none := ⟨rfl, rfl, rfl⟩

end Sms
